import Mathlib

/-!
Verification of core components of the `cli-cih` multi-assistant
orchestration engine against its natural-language specification.

The Python source is shallowly embedded: pure functions become Lean
functions over `List Char` / `String` / `ℚ`; stateful components become
explicit state passing.  Python float literals are modelled as exact
rationals (none of the settled properties depends on binary rounding).
Python's Unicode-aware character classes are modelled as: ASCII
alphanumerics, underscore, and every code point ≥ 0x80 count as word
characters; all concrete inputs used in witnesses and counterexamples
are ASCII, where the two notions agree.
-/

namespace CIH

/-! ### String helpers (Python `str` methods used by the source) -/

/-- Python `str.lower` restricted to ASCII (all concrete inputs are ASCII). -/
def lowerStr (s : String) : String := String.mk (s.toList.map Char.toLower)

/-- Python `str.upper` restricted to ASCII. -/
def upperStr (s : String) : String := String.mk (s.toList.map Char.toUpper)

/-- Python `str.strip` on a character list. -/
def stripChars (cs : List Char) : List Char :=
  ((cs.dropWhile Char.isWhitespace).reverse.dropWhile Char.isWhitespace).reverse

/-- Python `str.strip`. -/
def stripStr (s : String) : String := String.mk (stripChars s.toList)

/-- Python substring test `sub in s`. -/
def containsSub (s sub : String) : Bool := decide (List.IsInfix sub.toList s.toList)

/-- Python `str.startswith`. -/
def startsWith (s p : String) : Bool := p.toList.isPrefixOf s.toList

/-- Split a character list into maximal runs of characters satisfying `p`
(Python `re.findall` of a run pattern / `str.split()` semantics). -/
def runsOf (p : Char → Bool) (cs : List Char) : List (List Char) :=
  (cs.splitOnP (fun c => ! p c)).filter (fun g => ! g.isEmpty)

/-- Python `str.split()` (split on whitespace, dropping empty fields). -/
def splitWs (s : String) : List String :=
  (runsOf (fun c => ! c.isWhitespace) s.toList).map String.mk

/-- Python `str.split("\n")`. -/
def splitNl (s : String) : List String :=
  (s.toList.splitOnP (fun c => c = '\n')).map String.mk

/-- Python `s[:n]` on strings. -/
def takeStr (s : String) (n : Nat) : String := String.mk (s.toList.take n)

/-- Python `len` on strings (number of characters). -/
def lenStr (s : String) : Nat := s.toList.length

/-- Word character for Python's `\w` (see the header note on Unicode). -/
def isWordChar (c : Char) : Bool := c.isAlphanum || c = '_' || 0x80 ≤ c.toNat

/-- Prefix test plus a trailing `\b`: `w` starts here and the character
after it (if any) is not a word character. -/
def wordPrefixHere (w cs : List Char) : Bool :=
  w.isPrefixOf cs &&
    (match (cs.drop w.length).head? with
     | none => true
     | some c => ! isWordChar c)

/-- Leading `\b`: the position is at the string start or preceded by a
non-word character. -/
def boundaryPrev : Option Char → Bool
  | none => true
  | some c => ! isWordChar c

/-- One literal alternative of a `\b(a|b|…)\b` regex matches somewhere in
`cs`; `prev` is the character before the current position. -/
def wordMatchFrom (w : List Char) : Option Char → List Char → Bool
  | prev, [] => boundaryPrev prev && wordPrefixHere w []
  | prev, c :: rest =>
    (boundaryPrev prev && wordPrefixHere w (c :: rest)) ||
      wordMatchFrom w (some c) rest

/-- Python `re.search(r"\b(lit|…)\b", text)` as a Boolean, for a regex
that is an alternation of literals each starting and ending with a word
character (true of every pattern in the source). -/
def regexHit (text : String) (lits : List String) : Bool :=
  lits.any (fun w => wordMatchFrom w.toList none text.toList)

/-! ### `task_analyzer.py` — `TaskAnalyzer` -/

/-- `TaskType` enumeration from `task_analyzer.py`. -/
inductive TaskType
  | code | design | analysis | creative | research | debug | explain
  | general | simple_chat
deriving DecidableEq, Repr

/-- `Task` dataclass from `task_analyzer.py`. -/
structure Task where
  prompt : String
  task_type : TaskType
  complexity : ℚ
  keywords : List String
  requires_code : Bool
  requires_creativity : Bool
  requires_analysis : Bool
  suggested_rounds : Nat
  suggested_ai_count : Nat
deriving DecidableEq, Repr

/-- `TaskAnalyzer.SIMPLE_PATTERNS`. -/
def SIMPLE_PATTERNS : List String :=
  ["안녕", "하이", "hi", "hello", "헬로", "방가", "반가",
   "안녕하세요", "good morning", "good night", "잘자",
   "고마워", "감사", "thx", "thanks", "thank you", "thank",
   "응", "네", "예", "아니", "노", "ok", "okay", "yes", "no", "sure",
   "ㅇㅇ", "ㄴㄴ", "그래", "알겠어",
   "ㅎㅎ", "ㅋㅋ", "ㅠㅠ", "ㅜㅜ", "ㅎ", "ㅋ", "ㅠ", "ㅜ",
   "오", "와", "헐", "대박",
   "bye", "잘가", "바이", "굿나잇", "굿모닝",
   "뭐해", "뭐야", "왜", "어때", "좋아", "싫어"]

/-- `TaskAnalyzer.SIMPLE_MAX_LENGTH`. -/
def SIMPLE_MAX_LENGTH : Nat := 15

/-- `TaskAnalyzer.CODE_PATTERNS`; each regex is its list of literal
alternatives. -/
def CODE_PATTERNS : List (List String) :=
  [["코드", "code", "implement", "구현", "function", "함수", "class", "클래스"],
   ["프로그램", "program", "script", "스크립트", "algorithm", "알고리즘"],
   ["python", "javascript", "typescript", "java", "rust", "go"]]

/-- `TaskAnalyzer.DESIGN_PATTERNS`. -/
def DESIGN_PATTERNS : List (List String) :=
  [["설계", "design", "architecture", "아키텍처", "structure", "구조"],
   ["api", "인터페이스", "interface", "schema", "스키마"],
   ["시스템", "system", "database", "데이터베이스"]]

/-- `TaskAnalyzer.ANALYSIS_PATTERNS`. -/
def ANALYSIS_PATTERNS : List (List String) :=
  [["분석", "analyze", "analysis", "평가", "evaluate", "review", "리뷰"],
   ["비교", "compare", "comparison", "장단점", "pros", "cons"],
   ["최적화", "optimize", "performance", "성능"]]

/-- `TaskAnalyzer.CREATIVE_PATTERNS`. -/
def CREATIVE_PATTERNS : List (List String) :=
  [["아이디어", "idea", "창의", "creative", "brainstorm", "브레인스토밍"],
   ["새로운", "new", "혁신", "innovative", "unique", "독특"]]

/-- `TaskAnalyzer.RESEARCH_PATTERNS`. -/
def RESEARCH_PATTERNS : List (List String) :=
  [["조사", "research", "찾아", "find", "search", "검색"],
   ["트렌드", "trend", "최신", "latest", "현재", "current"]]

/-- `TaskAnalyzer.DEBUG_PATTERNS`. -/
def DEBUG_PATTERNS : List (List String) :=
  [["버그", "bug", "에러", "error", "오류", "fix", "수정", "debug", "디버그"],
   ["안되", "doesn't work", "not working", "문제", "problem", "issue"]]

/-- `TaskAnalyzer.EXPLAIN_PATTERNS`. -/
def EXPLAIN_PATTERNS : List (List String) :=
  [["설명", "explain", "explanation", "뭐야", "what is", "어떻게", "how"],
   ["이해", "understand", "meaning", "의미"]]

/-- `TaskAnalyzer.COMPLEXITY_BOOSTERS`. -/
def COMPLEXITY_BOOSTERS : List (List String) :=
  [["복잡", "complex", "advanced", "고급", "sophisticated"],
   ["전체", "entire", "complete", "전부", "all", "모든"],
   ["통합", "integrate", "integration", "연동"],
   ["대규모", "large-scale", "enterprise", "엔터프라이즈"]]

/-- `TaskAnalyzer.COMPLEXITY_REDUCERS`. -/
def COMPLEXITY_REDUCERS : List (List String) :=
  [["간단", "simple", "basic", "기본", "쉬운", "easy"],
   ["하나", "one", "single", "단일"],
   ["예시", "example", "샘플", "sample"]]

/-- `TaskAnalyzer._pattern_score`: count of regexes that match. -/
def patternScore (text : String) (patterns : List (List String)) : Nat :=
  patterns.countP (fun lits => regexHit text lits)

/-- `TaskAnalyzer._check_patterns`. -/
def checkPatterns (text : String) (patterns : List (List String)) : Bool :=
  0 < patternScore text patterns

/-- `TaskAnalyzer._detect_task_type`: scores are collected in a dict in
this insertion order and the first entry attaining the maximum wins. -/
def typeScorePairs (prompt : String) : List (TaskType × Nat) :=
  [(TaskType.code, patternScore prompt CODE_PATTERNS),
   (TaskType.design, patternScore prompt DESIGN_PATTERNS),
   (TaskType.analysis, patternScore prompt ANALYSIS_PATTERNS),
   (TaskType.creative, patternScore prompt CREATIVE_PATTERNS),
   (TaskType.research, patternScore prompt RESEARCH_PATTERNS),
   (TaskType.debug, patternScore prompt DEBUG_PATTERNS),
   (TaskType.explain, patternScore prompt EXPLAIN_PATTERNS)]

/-- First list entry whose score equals `m` (Python's
`for task_type, score in type_scores.items(): if score == max_score`). -/
def firstWithScore (m : Nat) : List (TaskType × Nat) → TaskType
  | [] => TaskType.general
  | (t, s) :: rest => if s = m then t else firstWithScore m rest

/-- `TaskAnalyzer._detect_task_type`: `max_score` is the maximum of the
dict values (zero included as the maximum of an empty iterable never
arises: the dict always has seven entries). -/
def detectTaskType (prompt : String) : TaskType :=
  if ((typeScorePairs prompt).map (·.2)).foldr max 0 = 0 then TaskType.general
  else firstWithScore (((typeScorePairs prompt).map (·.2)).foldr max 0)
    (typeScorePairs prompt)

/-- Stopword set from `TaskAnalyzer._extract_keywords`. -/
def COMMON_WORDS : List String :=
  ["the", "a", "an", "is", "are", "was", "were", "be", "been",
   "have", "has", "had", "do", "does", "did", "will", "would",
   "could", "should", "may", "might", "must", "can", "to", "of",
   "in", "for", "on", "with", "at", "by", "from", "as", "or",
   "and", "but", "if", "then", "else", "when", "where", "what",
   "which", "who", "how", "why", "all", "each", "every", "both",
   "few", "more", "most", "other", "some", "such", "no", "not",
   "only", "same", "so", "than", "too", "very", "just", "also",
   "now", "here", "there", "this", "that", "these", "those",
   "해", "줘", "해줘", "주세요", "하세요", "좀", "것", "거", "이", "그"]

/-- De-duplicate keeping first occurrences (the `seen` set loop). -/
def dedupFirst : List String → List String → List String
  | _, [] => []
  | seen, w :: rest =>
    if seen.contains w then dedupFirst seen rest
    else w :: dedupFirst (w :: seen) rest

/-- `TaskAnalyzer._extract_keywords` (input is already lowercased). -/
def extractKeywords (prompt : String) : List String :=
  let words := (runsOf isWordChar (lowerStr prompt).toList).map String.mk
  let kept := words.filter (fun w => ! COMMON_WORDS.contains w && 2 < lenStr w)
  (dedupFirst [] kept).take 10

/-- `TaskAnalyzer._calculate_complexity`. -/
def calculateComplexity (prompt : String) (keywords : List String) : ℚ :=
  let score : ℚ := 0.5
  let wc := (splitWs prompt).length
  let score := if 50 < wc then score + 0.15
    else if 20 < wc then score + 0.08
    else if wc < 10 then score - 0.1
    else score
  let score := if 7 < keywords.length then score + 0.1
    else if 4 < keywords.length then score + 0.05
    else score
  let score := if checkPatterns prompt COMPLEXITY_BOOSTERS then score + 0.2 else score
  let score := if checkPatterns prompt COMPLEXITY_REDUCERS then score - 0.2 else score
  let typeCount :=
    (if checkPatterns prompt CODE_PATTERNS then 1 else 0) +
    (if checkPatterns prompt DESIGN_PATTERNS then 1 else 0) +
    (if checkPatterns prompt ANALYSIS_PATTERNS then 1 else 0)
  let score := if 1 < typeCount then score + 0.1 * ((typeCount : ℚ) - 1) else score
  max 0 (min 1 score)

/-- `TaskAnalyzer._suggest_rounds` (`base_rounds` stays a small integer;
Python ints are modelled as `Int` during the adjustment). -/
def suggestRounds (complexity : ℚ) (t : TaskType) : Nat :=
  let base : Int := 3
  let base := if 0.7 < complexity then base + 2
    else if 0.4 < complexity then base + 1
    else base
  let base := if t = TaskType.design ∨ t = TaskType.analysis then base + 1
    else if t = TaskType.explain ∨ t = TaskType.general then base - 1
    else base
  (max 2 (min 7 base)).toNat

/-- `TaskAnalyzer._suggest_ai_count`. -/
def suggestAiCount (complexity : ℚ) (_t : TaskType) : Nat :=
  if complexity < 0.3 then 2 else if complexity < 0.6 then 3 else 4

/-- Technical indicator list from `TaskAnalyzer._is_simple_chat`. -/
def TECHNICAL_INDICATORS : List String :=
  ["코드", "code", "함수", "function", "구현", "implement",
   "버그", "bug", "에러", "error", "디버그", "debug",
   "설계", "design", "아키텍처", "architecture",
   "분석", "analyze", "비교", "compare",
   "만들어", "작성", "생성", "create", "make", "build"]

/-- `TaskAnalyzer._is_simple_chat` (argument already lowercased and
stripped). -/
def isSimpleChat (prompt : String) : Bool :=
  if lenStr prompt = 0 then true
  else if lenStr prompt < SIMPLE_MAX_LENGTH then true
  else if SIMPLE_PATTERNS.any (fun p => containsSub prompt p) && lenStr prompt < 30 then true
  else if (splitWs prompt).length ≤ 3 then true
  else if TECHNICAL_INDICATORS.any (fun p => containsSub prompt p) then false
  else false

/-- `TaskAnalyzer.analyze`. -/
def analyze (prompt : String) : Task :=
  let prompt_lower := stripStr (lowerStr prompt)
  if isSimpleChat prompt_lower then
    { prompt := prompt, task_type := TaskType.simple_chat, complexity := 0.1,
      keywords := [], requires_code := false, requires_creativity := false,
      requires_analysis := false, suggested_rounds := 1, suggested_ai_count := 1 }
  else
    let task_type := detectTaskType prompt_lower
    let keywords := extractKeywords prompt_lower
    let complexity := calculateComplexity prompt_lower keywords
    { prompt := prompt, task_type := task_type, complexity := complexity,
      keywords := keywords,
      requires_code := checkPatterns prompt_lower CODE_PATTERNS,
      requires_creativity := checkPatterns prompt_lower CREATIVE_PATTERNS,
      requires_analysis := checkPatterns prompt_lower ANALYSIS_PATTERNS,
      suggested_rounds := suggestRounds complexity task_type,
      suggested_ai_count := suggestAiCount complexity task_type }

/-! ### `utils/text.py` — `clean_ansi`

The compiled pattern is ESC followed by either a single character in
0x40–0x5A / 0x5C–0x5F, or a CSI sequence: a left bracket, then
parameter bytes 0x30–0x3F, then intermediate bytes 0x20–0x2F, then one
final byte 0x40–0x7E.  It is applied with `re.sub` (leftmost,
non-overlapping).  The three bracketed classes
of the CSI branch are pairwise disjoint, so the greedy star needs no
backtracking and maximal-run scanning is exact. -/

/-- Membership in the single-character branch class (0x40–0x5A and 0x5C–0x5F). -/
def ansiSingleFinal (c : Char) : Bool :=
  (0x40 ≤ c.toNat && c.toNat ≤ 0x5A) || (0x5C ≤ c.toNat && c.toNat ≤ 0x5F)

/-- Membership in the parameter-byte class (0x30–0x3F). -/
def ansiParam (c : Char) : Bool := 0x30 ≤ c.toNat && c.toNat ≤ 0x3F

/-- Membership in the intermediate-byte class (0x20–0x2F). -/
def ansiInter (c : Char) : Bool := 0x20 ≤ c.toNat && c.toNat ≤ 0x2F

/-- Membership in the final-byte class (0x40–0x7E). -/
def ansiFinal (c : Char) : Bool := 0x40 ≤ c.toNat && c.toNat ≤ 0x7E

/-- If the ANSI pattern matches at the head of the list, return the
remainder of the list after the match. -/
def ansiMatchRest : List Char → Option (List Char)
  | e :: c :: rest =>
    if e = '\x1b' then
      if ansiSingleFinal c then some rest
      else if c = '[' then
        match (rest.dropWhile ansiParam).dropWhile ansiInter with
        | f :: tail => if ansiFinal f then some tail else none
        | [] => none
      else none
    else none
  | _ => none

/-- `re.sub` scan deleting every match; `fuel` bounds recursion depth and
is always called with at least the list length, which suffices because a
match consumes at least two characters. -/
def cleanAnsiAux : Nat → List Char → List Char
  | 0, _ => []
  | _ + 1, [] => []
  | fuel + 1, c :: rest =>
    match ansiMatchRest (c :: rest) with
    | some r => cleanAnsiAux fuel r
    | none => c :: cleanAnsiAux fuel rest

/-- `clean_ansi` from `utils/text.py`. -/
def clean_ansi (s : String) : String :=
  String.mk (cleanAnsiAux s.toList.length s.toList)

/-! ### `orchestration/context.py` — `SharedContext` -/

/-- `Message` dataclass from `context.py` (the wall-clock timestamp is
omitted: no embedded operation reads it). -/
structure CtxMessage where
  ai_name : String
  content : String
  round_num : Nat
  token_count : Nat
deriving DecidableEq, Repr

/-- `Message.__post_init__`: token estimate is `len(content) // 4` when
not supplied (call sites never supply it). -/
def mkCtxMessage (ai_name content : String) (round_num : Nat) : CtxMessage :=
  { ai_name := ai_name, content := content, round_num := round_num,
    token_count := lenStr content / 4 }

/-- `SharedContext` state. -/
structure Ctx where
  original_prompt : String
  max_tokens : Nat
  max_history_per_ai : Nat
  messages : List CtxMessage
  ai_message_counts : List (String × Nat)
  current_round : Nat
  consensus_reached : Bool
  key_points : List String
deriving DecidableEq, Repr

/-- `SharedContext.__init__` (defaults `max_tokens=8000`,
`max_history_per_ai=5`). -/
def mkCtx (original_prompt : String) : Ctx :=
  { original_prompt := original_prompt, max_tokens := 8000,
    max_history_per_ai := 5, messages := [], ai_message_counts := [],
    current_round := 0, consensus_reached := false, key_points := [] }

/-- `defaultdict(int)` bump of a per-adapter counter. -/
def bumpCount (name : String) : List (String × Nat) → List (String × Nat)
  | [] => [(name, 1)]
  | (k, v) :: rest =>
    if k = name then (k, v + 1) :: rest else (k, v) :: bumpCount name rest

/-- Append `point` to `key_points` and drop the oldest entry when the
list exceeds 20 (the shared tail of `_extract_key_points` and
`add_key_point`). -/
def pushKeyPoint (kps : List String) (point : String) : List String :=
  let kps := kps ++ [point]
  if 20 < kps.length then kps.tail else kps

/-- Body of the `_extract_key_points` loop for one line. -/
def extractKeyPointLine (kps : List String) (rawLine : String) : List String :=
  let line := stripStr rawLine
  let firstDigit :=
    match line.toList.head? with
    | some c => c.isDigit
    | none => false
  if lenStr line ≠ 0 &&
      (firstDigit || startsWith line "-" || startsWith line "*" ||
        startsWith line "â€¢") then
    let point := takeStr line 100
    if kps.contains point then kps else pushKeyPoint kps point
  else kps

/-- `SharedContext._extract_key_points`. -/
def extractKeyPoints (kps : List String) (content : String) : List String :=
  (splitNl content).foldl extractKeyPointLine kps

/-- `SharedContext.add_message`. -/
def add_message (ctx : Ctx) (ai_name content : String) (round_num : Nat) : Ctx :=
  { ctx with
    messages := ctx.messages ++ [mkCtxMessage ai_name content round_num],
    ai_message_counts := bumpCount ai_name ctx.ai_message_counts,
    current_round := max ctx.current_round round_num,
    key_points := extractKeyPoints ctx.key_points content }

/-- `SharedContext.add_key_point`.  Note: the membership test uses the
untruncated point while the appended entry is truncated to 100
characters. -/
def add_key_point (ctx : Ctx) (point : String) : Ctx :=
  if lenStr point ≠ 0 && ! ctx.key_points.contains point then
    { ctx with key_points := pushKeyPoint ctx.key_points (takeStr point 100) }
  else ctx

/-- `SharedContext.get_recent_messages` (`messages[-count:]`). -/
def get_recent_messages (ctx : Ctx) (count : Nat) : List CtxMessage :=
  ctx.messages.drop (ctx.messages.length - count)

/-- `SharedContext._get_context_messages`: walk newest-first, stop when
the running token estimate would exceed `max_tokens // 2`. -/
def contextMessagesAux (budget : Nat) : List CtxMessage → Nat → List CtxMessage
  | [], _ => []
  | m :: rest, used =>
    if budget < used + m.token_count then []
    else contextMessagesAux budget rest (used + m.token_count) ++ [m]

/-- `SharedContext._get_context_messages`. -/
def getContextMessages (ctx : Ctx) : List CtxMessage :=
  contextMessagesAux (ctx.max_tokens / 2) ctx.messages.reverse 0

/-- `SharedContext.build_prompt_for`. -/
def build_prompt_for (ctx : Ctx) (ai_name : String) (is_first_round : Bool) : String :=
  let base : List String :=
    ["You are participating in a collaborative AI discussion.",
     "Multiple AIs are working together to help the user.",
     "Be concise but thorough. Build on others' ideas.",
     "If you agree, say so briefly and add value.",
     "If you disagree, explain why constructively.",
     "",
     "USER'S QUESTION: " ++ ctx.original_prompt,
     ""]
  let parts :=
    if is_first_round then
      base ++ ["This is the first round. Share your initial thoughts."]
    else
      let recent := getContextMessages ctx
      let msgParts := recent.flatMap (fun m =>
        let content := if 500 < lenStr m.content
          then takeStr m.content 500 ++ "..." else m.content
        ["[" ++ upperStr m.ai_name ++ "]" ++ " " ++ content, ""])
      let kpParts :=
        if ctx.key_points.isEmpty then []
        else "KEY POINTS IDENTIFIED:" ::
          (ctx.key_points.drop (ctx.key_points.length - 5)).map
            (fun p => "  " ++ p) ++ [""]
      base ++ ["DISCUSSION SO FAR:", ""] ++ msgParts ++ kpParts ++
        ["Now it's your turn (" ++ ai_name ++ "). Respond to the discussion.",
         "Add new insights or build on what others have said."]
  String.intercalate "\n" parts

/-! ### `utils/retry.py` — `CircuitBreaker`

Wall-clock instants (`time.time()`) are modelled as rationals supplied
by the caller at each state transition. -/

/-- Circuit breaker states (`"closed"`, `"open"`, `"half_open"`). -/
inductive CBState
  | closed | opened | half_open
deriving DecidableEq, Repr

/-- `CircuitBreaker` state. -/
structure CircuitBreaker where
  failure_threshold : Nat
  recovery_timeout : ℚ
  half_open_requests : Nat
  failure_count : Nat
  last_failure_time : Option ℚ
  state : CBState
  half_open_count : Nat
deriving DecidableEq, Repr

/-- `CircuitBreaker.__init__` (defaults 5 / 30.0 / 1). -/
def mkCircuitBreaker (failure_threshold : Nat) (recovery_timeout : ℚ)
    (half_open_requests : Nat) : CircuitBreaker :=
  { failure_threshold := failure_threshold,
    recovery_timeout := recovery_timeout,
    half_open_requests := half_open_requests,
    failure_count := 0, last_failure_time := none,
    state := CBState.closed, half_open_count := 0 }

/-- `CircuitBreaker.record_success`. -/
def record_success (cb : CircuitBreaker) : CircuitBreaker :=
  if cb.state = CBState.half_open then
    { cb with state := CBState.closed, failure_count := 0 }
  else { cb with failure_count := 0 }

/-- `CircuitBreaker.record_failure` at wall-clock instant `t`: increments
the failure count, stamps the instant, and opens the breaker when the
incremented count reaches the threshold. -/
def record_failure (cb : CircuitBreaker) (t : ℚ) : CircuitBreaker :=
  if cb.failure_threshold ≤ cb.failure_count + 1 then
    { cb with failure_count := cb.failure_count + 1,
              last_failure_time := some t, state := CBState.opened }
  else
    { cb with failure_count := cb.failure_count + 1,
              last_failure_time := some t }

/-- `CircuitBreaker.can_execute` at instant `t`: returns the decision and
the updated breaker (the method mutates `_state` on recovery). -/
def can_execute (cb : CircuitBreaker) (t : ℚ) : Bool × CircuitBreaker :=
  match cb.state with
  | CBState.closed => (true, cb)
  | CBState.opened =>
    match cb.last_failure_time with
    | none => (true, cb)
    | some lt =>
      if cb.recovery_timeout ≤ t - lt then
        (true, { cb with state := CBState.half_open, half_open_count := 0 })
      else (false, cb)
  | CBState.half_open =>
    if cb.half_open_count < cb.half_open_requests then
      (true, { cb with half_open_count := cb.half_open_count + 1 })
    else (false, cb)

/-- Outcome of `CircuitBreaker.execute`: either the call was rejected
with `CircuitBreakerOpenError` before invoking the wrapped operation, or
the operation ran and succeeded / raised. -/
inductive ExecOutcome
  | rejected
  | ran (success : Bool)
deriving DecidableEq, Repr

/-- `CircuitBreaker.execute` at instant `t`; `opSuccess` tells whether the
wrapped operation would succeed if invoked.  The first component records
whether the operation was actually invoked. -/
def cbExecute (cb : CircuitBreaker) (t : ℚ) (opSuccess : Bool) :
    ExecOutcome × CircuitBreaker :=
  match can_execute cb t with
  | (false, cb) => (ExecOutcome.rejected, cb)
  | (true, cb) =>
    if opSuccess then (ExecOutcome.ran true, record_success cb)
    else (ExecOutcome.ran false, record_failure cb t)

/-! ### `orchestration/conflict.py` — `ConflictResolver.resolve` -/

/-- `Opinion` dataclass (fields used by `resolve`). -/
structure Opinion where
  ai_name : String
  position : String
  confidence : ℚ
  reasoning : String
  supporting_points : List String
deriving DecidableEq, Repr

/-- `VotedOption` dataclass. -/
structure VotedOption where
  position : String
  supporters : List String
  weight : ℚ
  reasoning : String
deriving DecidableEq, Repr

/-- `ResolutionType` enumeration. -/
inductive ResolutionType
  | auto_resolved | user_decision | compromise | deferred
deriving DecidableEq, Repr

/-- `Resolution` dataclass. -/
structure Resolution where
  type : ResolutionType
  winner : Option String
  options : List VotedOption
  explanation : String
  confidence : ℚ
deriving DecidableEq, Repr

/-- `AI_STRENGTHS[name][task_type]` rows. -/
def claudeStrength : TaskType → ℚ
  | TaskType.code => 0.9
  | TaskType.design => 0.95
  | TaskType.analysis => 0.9
  | TaskType.creative => 0.85
  | TaskType.research => 0.8
  | TaskType.debug => 0.85
  | TaskType.explain => 0.95
  | TaskType.general => 0.9
  | TaskType.simple_chat => 0.9

/-- `AI_STRENGTHS["codex"]`. -/
def codexStrength : TaskType → ℚ
  | TaskType.code => 0.95
  | TaskType.design => 0.85
  | TaskType.analysis => 0.8
  | TaskType.creative => 0.7
  | TaskType.research => 0.7
  | TaskType.debug => 0.9
  | TaskType.explain => 0.75
  | TaskType.general => 0.8
  | TaskType.simple_chat => 0.7

/-- `AI_STRENGTHS["gemini"]`. -/
def geminiStrength : TaskType → ℚ
  | TaskType.code => 0.85
  | TaskType.design => 0.85
  | TaskType.analysis => 0.9
  | TaskType.creative => 0.9
  | TaskType.research => 0.95
  | TaskType.debug => 0.8
  | TaskType.explain => 0.9
  | TaskType.general => 0.85
  | TaskType.simple_chat => 0.85

/-- `AI_STRENGTHS["ollama"]`. -/
def ollamaStrength : TaskType → ℚ
  | TaskType.code => 0.8
  | TaskType.design => 0.75
  | TaskType.analysis => 0.75
  | TaskType.creative => 0.8
  | TaskType.research => 0.7
  | TaskType.debug => 0.75
  | TaskType.explain => 0.8
  | TaskType.general => 0.8
  | TaskType.simple_chat => 0.85

/-- `AI_STRENGTHS.get(ai_name.lower(), {}).get(task_type, 0.5)`. -/
def aiStrength (ai_name : String) (t : TaskType) : ℚ :=
  if lowerStr ai_name = "claude" then claudeStrength t
  else if lowerStr ai_name = "codex" then codexStrength t
  else if lowerStr ai_name = "gemini" then geminiStrength t
  else if lowerStr ai_name = "ollama" then ollamaStrength t
  else 0.5

/-- Merge one opinion's weighted vote into the ordered vote list (the
`votes` dict keyed by position, in insertion order); the vote's weight is
`strength * confidence`. -/
def addVote (t : TaskType) (votes : List VotedOption)
    (ai_name : String) (op : Opinion) : List VotedOption :=
  if votes.any (fun v => v.position = op.position) then
    votes.map (fun v =>
      if v.position = op.position then
        { v with supporters := v.supporters ++ [ai_name],
                 weight := v.weight + aiStrength ai_name t * op.confidence }
      else v)
  else
    votes ++ [{ position := op.position, supporters := [ai_name],
                weight := aiStrength ai_name t * op.confidence,
                reasoning := op.reasoning }]

/-- The `votes` map of `resolve` after processing every opinion; the
opinion dict is modelled as an insertion-ordered association list. -/
def buildVotes (t : TaskType) (opinions : List (String × Opinion)) :
    List VotedOption :=
  opinions.foldl (fun votes p => addVote t votes p.1 p.2) []

/-- Stable insertion into a list sorted by descending weight (`sorted`
with `reverse=True` is stable, so an element is placed after existing
elements of equal weight). -/
def insertByWeight (x : VotedOption) : List VotedOption → List VotedOption
  | [] => [x]
  | y :: ys => if y.weight < x.weight then x :: y :: ys else y :: insertByWeight x ys

/-- `sorted(votes.values(), key=weight, reverse=True)` as a stable
insertion sort. -/
def sortByWeight : List VotedOption → List VotedOption
  | [] => []
  | x :: xs => insertByWeight x (sortByWeight xs)

/-- The ranked option list computed inside `resolve`. -/
def sortedOptions (t : TaskType) (opinions : List (String × Opinion)) :
    List VotedOption :=
  sortByWeight (buildVotes t opinions)

/-- Sum of option weights (denominator of the AUTO_RESOLVED confidence). -/
def totalWeight (options : List VotedOption) : ℚ :=
  (options.map (·.weight)).sum

/-- `ConflictResolver.resolve` (the explanation strings that interpolate
floats with `:.2f` are modelled as the empty string: no settled property
reads them; rational division by zero yields 0 where Python would raise,
reachable only when every option weight is zero). -/
def resolve (t : TaskType) (opinions : List (String × Opinion)) : Resolution :=
  match sortedOptions t opinions with
  | [] =>
    { type := ResolutionType.deferred, winner := none, options := [],
      explanation := "No clear positions identified", confidence := 0 }
  | [top] =>
    { type := ResolutionType.auto_resolved, winner := some top.position,
      options := [top], explanation := "",
      confidence := top.weight / totalWeight [top] }
  | top :: second :: restOpts =>
    if (if 0 < top.weight then (top.weight - second.weight) / top.weight else 0)
        < 0.1 then
      { type := ResolutionType.user_decision, winner := none,
        options := (top :: second :: restOpts).take 2, explanation := "",
        confidence :=
          if 0 < top.weight then (top.weight - second.weight) / top.weight else 0 }
    else
      { type := ResolutionType.auto_resolved, winner := some top.position,
        options := top :: second :: restOpts, explanation := "",
        confidence := top.weight / totalWeight (top :: second :: restOpts) }

/-! ### `storage/history.py` — `HistoryStorage` over `storage/models.py`

The SQLite database is modelled as three row lists in insertion order.
`INSERT OR REPLACE` deletes every row violating a uniqueness constraint
and appends the new row.  Timestamps are carried as their ISO-8601
strings (what the store writes and compares); JSON round-trips of string
lists and string-keyed metadata are identities and the fields are kept
structured. -/

/-- `SessionStatus` enumeration. -/
inductive SessionStatus
  | in_progress | completed | cancelled | error
deriving DecidableEq, Repr

/-- `SenderType` enumeration. -/
inductive SenderType
  | user | ai | system
deriving DecidableEq, Repr

/-- `HistoryMessage` dataclass. -/
structure HistoryMessage where
  id : String
  session_id : String
  sender_type : SenderType
  sender_id : String
  content : String
  created_at : String
  round_num : Int
  metadata : List (String × String)
deriving DecidableEq, Repr

/-- `SessionResult` dataclass. -/
structure SessionResult where
  id : String
  session_id : String
  summary : String
  key_points : List String
  consensus_reached : Bool
  confidence : ℚ
  created_at : String
deriving DecidableEq, Repr

/-- `Session` dataclass. -/
structure Session where
  id : String
  user_query : String
  task_type : String
  participating_ais : List String
  total_rounds : Int
  status : SessionStatus
  created_at : String
  updated_at : String
  messages : List HistoryMessage
  result : Option SessionResult
deriving DecidableEq, Repr

/-- Row of the `sessions` table. -/
structure SessionRow where
  id : String
  user_query : String
  task_type : String
  participating_ais : List String
  total_rounds : Int
  status : SessionStatus
  created_at : String
  updated_at : String
deriving DecidableEq, Repr

/-- Database state: the three tables in row-insertion order. -/
structure Store where
  sessions : List SessionRow
  messages : List HistoryMessage
  results : List SessionResult
deriving DecidableEq, Repr

/-- `INSERT OR REPLACE INTO sessions` (conflict on the `id` primary key). -/
def upsertSession (rows : List SessionRow) (r : SessionRow) : List SessionRow :=
  rows.filter (fun x => x.id ≠ r.id) ++ [r]

/-- `INSERT OR REPLACE INTO messages` (conflict on the `id` primary key). -/
def upsertMessage (rows : List HistoryMessage) (m : HistoryMessage) :
    List HistoryMessage :=
  rows.filter (fun x => x.id ≠ m.id) ++ [m]

/-- `INSERT OR REPLACE INTO results` (conflict on the `id` primary key or
on the `session_id UNIQUE` constraint). -/
def upsertResult (rows : List SessionResult) (r : SessionResult) :
    List SessionResult :=
  rows.filter (fun x => x.id ≠ r.id ∧ x.session_id ≠ r.session_id) ++ [r]

/-- `HistoryStorage.save_session`: upsert the session row, upsert every
message in list order, and upsert the result when present. -/
def save_session (st : Store) (s : Session) : Store :=
  { sessions := upsertSession st.sessions
      { id := s.id, user_query := s.user_query, task_type := s.task_type,
        participating_ais := s.participating_ais,
        total_rounds := s.total_rounds, status := s.status,
        created_at := s.created_at, updated_at := s.updated_at },
    messages := s.messages.foldl upsertMessage st.messages,
    results :=
      match s.result with
      | none => st.results
      | some r => upsertResult st.results r }

/-- Lexicographic code-point comparison on character lists: SQLite's
BINARY collation compares UTF-8 bytes, and UTF-8 byte order agrees with
code-point order. -/
def charListLt : List Char → List Char → Bool
  | [], [] => false
  | [], _ :: _ => true
  | _ :: _, [] => false
  | a :: as, b :: bs =>
    if a.toNat < b.toNat then true
    else if b.toNat < a.toNat then false
    else charListLt as bs

/-- String comparison used by `ORDER BY created_at` (TEXT ordering):
`a ≤ b` iff not `b < a`. -/
def createdLe (a b : HistoryMessage) : Bool :=
  ! charListLt b.created_at.toList a.created_at.toList

/-- Stable insertion for `ORDER BY created_at` (ascending). -/
def insertByCreated (x : HistoryMessage) : List HistoryMessage → List HistoryMessage
  | [] => [x]
  | y :: ys =>
    if createdLe y x then y :: insertByCreated x ys else x :: y :: ys

/-- `ORDER BY created_at` as a stable insertion sort. -/
def sortByCreated : List HistoryMessage → List HistoryMessage
  | [] => []
  | x :: xs => insertByCreated x (sortByCreated xs)

/-- `HistoryStorage.get_session`: the session row by id, its messages
ordered by `created_at`, and its result row. -/
def get_session (st : Store) (session_id : String) : Option Session :=
  match st.sessions.find? (fun r => r.id = session_id) with
  | none => none
  | some row =>
    some { id := row.id, user_query := row.user_query,
           task_type := row.task_type,
           participating_ais := row.participating_ais,
           total_rounds := row.total_rounds, status := row.status,
           created_at := row.created_at, updated_at := row.updated_at,
           messages := sortByCreated
             (st.messages.filter (fun m => m.session_id = session_id)),
           result := st.results.find? (fun r => r.session_id = session_id) }

/-- `get_session` together with the connection's final table state: the
method runs only `SELECT` statements, so the store is returned as-is. -/
def getSessionKeepingStore (st : Store) (session_id : String) : Option Session × Store :=
  (get_session st session_id, st)

/-! ### `orchestration/discussion.py` and the coordinator fast path

An adapter's `send` is modelled by the chunks it yields followed by the
exception it raises, if any, as a function of the prompt.  The event
stream of a run is the emitted event list together with the exception
that escaped the generator, if any (an escaped exception aborts the
stream). -/

/-- Exceptions an adapter call can raise, by kind.  The first five are
the `AdapterError` hierarchy of `adapters/base.py`; `asyncioTimeout` is
`asyncio.TimeoutError`; `circuitOpen` is `CircuitBreakerOpenError` from
`utils/retry.py` (not an `AdapterError`); `otherExn` is any other
`Exception`. -/
inductive Exn
  | adapterError (msg : String)
  | adapterTimeout (msg : String)
  | adapterNotAvailable (msg : String)
  | adapterConnection (msg : String)
  | adapterRateLimit (msg : String)
  | asyncioTimeout
  | circuitOpen (msg : String)
  | otherExn (msg : String)
deriving DecidableEq, Repr

/-- `str(e)` (the `asyncio.TimeoutError` message is empty). -/
def exnStr : Exn → String
  | Exn.adapterError m => m
  | Exn.adapterTimeout m => m
  | Exn.adapterNotAvailable m => m
  | Exn.adapterConnection m => m
  | Exn.adapterRateLimit m => m
  | Exn.asyncioTimeout => ""
  | Exn.circuitOpen m => m
  | Exn.otherExn m => m

/-- `isinstance(e, AdapterError)`: the discussion loop's first handler. -/
def isAdapterError : Exn → Bool
  | Exn.adapterError _ => true
  | Exn.adapterTimeout _ => true
  | Exn.adapterNotAvailable _ => true
  | Exn.adapterConnection _ => true
  | Exn.adapterRateLimit _ => true
  | _ => false

/-- The discussion loop catches `AdapterError` and `asyncio.TimeoutError`
only. -/
def caughtByDiscussion (e : Exn) : Bool :=
  isAdapterError e || e = Exn.asyncioTimeout

/-- An adapter as the discussion manager sees it; `send` maps a prompt to
the yielded chunks and the exception raised afterwards, if any. -/
structure Adapter where
  name : String
  display_name : String
  icon : String
  color : String
  send : String → List String × Option Exn

/-- `DiscussionConfig` (defaults 5 / 0.7 / 60 / true / 50). -/
structure DiscussionConfig where
  max_rounds : Nat
  consensus_threshold : ℚ
  timeout_per_ai : Nat
  enable_consensus_check : Bool
  min_response_length : Nat
deriving Repr

/-- Default `DiscussionConfig()`. -/
def defaultDiscussionConfig : DiscussionConfig :=
  { max_rounds := 5, consensus_threshold := 0.7, timeout_per_ai := 60,
    enable_consensus_check := true, min_response_length := 50 }

/-- `SynthesisResult` dataclass from `synthesizer.py`. -/
structure SynthesisResult where
  summary : String
  key_points : List String
  agreements : List String
  disagreements : List String
  recommendations : List String
  ai_contributions : List (String × ℚ)
  total_messages : Nat
  total_rounds : Nat
  consensus_reached : Bool
deriving DecidableEq, Repr

/-- Discussion events (`discussion.py`) and the coordinator events the
fast path emits (`coordinator.py`); `AIsSelected` carries the adapter
names. -/
inductive Event
  | roundStart (round_num max_rounds : Nat)
  | roundEnd (round_num : Nat)
  | aiTurnStart (ai_name ai_icon ai_color : String)
  | aiChunk (ai_name chunk : String)
  | aiTurnEnd (ai_name full_response : String)
  | aiError (ai_name error : String)
  | consensusCheck (round_num : Nat) (consensus_reached : Bool)
  | discussionComplete (total_rounds : Nat) (consensus_reached : Bool)
  | aisSelected (adapters : List String) (explanation : String)
  | aiStart (ai_name ai_icon ai_color : String)
  | aiEnd (ai_name response : String)
  | resultEvent (result : SynthesisResult) (ctx : Ctx)
deriving DecidableEq, Repr

/-- Agreement phrases of `DiscussionManager._check_consensus`. -/
def AGREEMENT_PHRASES : List String :=
  ["agree", "동의", "맞습니다", "correct", "좋은 의견", "good point",
   "build on", "추가하면", "덧붙이면", "adding to"]

/-- `DiscussionManager._check_consensus`. -/
def checkConsensus (cfg : DiscussionConfig) (ctx : Ctx) : Bool :=
  let recent := get_recent_messages ctx 4
  if recent.length < 2 then false
  else
    let agreement_count := recent.countP (fun m =>
      AGREEMENT_PHRASES.any (fun p => containsSub (lowerStr m.content) p))
    cfg.consensus_threshold ≤ (agreement_count : ℚ) / (recent.length : ℚ)

/-- The `AIError` message: `str(e)` from the `AdapterError` handler,
`f"Timeout after {timeout_per_ai}s"` from the `asyncio.TimeoutError`
handler. -/
def discussionErrorText (cfg : DiscussionConfig) (e : Exn) : String :=
  if e = Exn.asyncioTimeout then
    "Timeout after " ++ toString cfg.timeout_per_ai ++ "s"
  else exnStr e

/-- One adapter's turn inside a round: events emitted, updated context,
and the exception escaping the loop, if any.  `AITurnStart` is yielded
before `send` runs; chunks yielded before a failure appear as `AIChunk`
events; a caught exception becomes `AIError`, an uncaught one escapes
after the events emitted so far. -/
def runTurn (cfg : DiscussionConfig) (a : Adapter) (ctx : Ctx) (r : Nat) :
    List Event × Ctx × Option Exn :=
  match a.send (build_prompt_for ctx a.name (r = 1)) with
  | (chunks, none) =>
    (Event.aiTurnStart a.display_name a.icon a.color ::
       chunks.map (fun c => Event.aiChunk a.display_name c) ++
       [Event.aiTurnEnd a.display_name (String.join chunks)],
     add_message ctx a.name (String.join chunks) r, none)
  | (chunks, some e) =>
    if caughtByDiscussion e then
      (Event.aiTurnStart a.display_name a.icon a.color ::
         chunks.map (fun c => Event.aiChunk a.display_name c) ++
         [Event.aiError a.display_name (discussionErrorText cfg e)], ctx, none)
    else
      (Event.aiTurnStart a.display_name a.icon a.color ::
         chunks.map (fun c => Event.aiChunk a.display_name c), ctx, some e)

/-- The inner `for adapter in adapters` loop of one round; an uncaught
exception stops the loop (and the whole generator). -/
def runRoundTurns (cfg : DiscussionConfig) (ctx : Ctx) (r : Nat) :
    List Adapter → List Event × Ctx × Option Exn
  | [] => ([], ctx, none)
  | a :: rest =>
    match runTurn cfg a ctx r with
    | (evs, ctx', none) =>
      match runRoundTurns cfg ctx' r rest with
      | (evs', ctx'', ab) => (evs ++ evs', ctx'', ab)
    | (evs, ctx', some e) => (evs, ctx', some e)

/-- The `for round_num in range(1, max_rounds + 1)` loop.  Returns the
events, the final context, `state.current_round`, the consensus flag and
the escaping exception, if any. -/
def runRounds (cfg : DiscussionConfig) (adapters : List Adapter)
    (max_rounds : Nat) : List Nat → Ctx → Nat → Bool →
    List Event × Ctx × Nat × Bool × Option Exn
  | [], ctx, cur, cons => ([], ctx, cur, cons, none)
  | r :: rest, ctx, _cur, cons =>
    match runRoundTurns cfg ctx r adapters with
    | (tEvs, ctx', some e) =>
      (Event.roundStart r max_rounds :: tEvs, ctx', r, cons, some e)
    | (tEvs, ctx', none) =>
      if cfg.enable_consensus_check && 1 < r then
        if checkConsensus cfg ctx' then
          (Event.roundStart r max_rounds :: tEvs ++
             [Event.roundEnd r, Event.consensusCheck r true],
           { ctx' with consensus_reached := true }, r, true, none)
        else
          match runRounds cfg adapters max_rounds rest ctx' r cons with
          | (evs', ctx'', cur', cons', ab') =>
            (Event.roundStart r max_rounds :: tEvs ++
               [Event.roundEnd r, Event.consensusCheck r false] ++ evs',
             ctx'', cur', cons', ab')
      else
        match runRounds cfg adapters max_rounds rest ctx' r cons with
        | (evs', ctx'', cur', cons', ab') =>
          (Event.roundStart r max_rounds :: tEvs ++ [Event.roundEnd r] ++ evs',
           ctx'', cur', cons', ab')

/-- `DiscussionManager.run`: the emitted events, the final context, and
the exception that aborted the generator, if any. -/
def run (cfg : DiscussionConfig) (task : Task) (adapters : List Adapter)
    (ctx : Ctx) : List Event × Ctx × Option Exn :=
  match runRounds cfg adapters (min task.suggested_rounds cfg.max_rounds)
    (List.range' 1 (min task.suggested_rounds cfg.max_rounds)) ctx 0 false with
  | (evs, ctx', _cur, _cons, some e) => (evs, ctx', some e)
  | (evs, ctx', cur, cons, none) =>
    (evs ++ [Event.discussionComplete cur cons], ctx', none)

/-- `Coordinator._fast_single_ai_response` with the available adapters
supplied by the caller (the parameter of `process`); on any exception
from `send` the handler emits `AIError` and returns without a `Result`
event. -/
def fastSingleAiResponse (user_input : String) (available : List Adapter) :
    List Event :=
  match available with
  | [] => [Event.aisSelected [] "No AI adapters available."]
  | a :: _ =>
    match a.send user_input with
    | (chunks, some e) =>
      [Event.aisSelected [a.name] ("Quick response from " ++ a.display_name),
       Event.aiStart a.display_name a.icon a.color] ++
        chunks.map (fun c => Event.aiChunk a.display_name c) ++
        [Event.aiError a.display_name (exnStr e)]
    | (chunks, none) =>
      [Event.aisSelected [a.name] ("Quick response from " ++ a.display_name),
       Event.aiStart a.display_name a.icon a.color] ++
        chunks.map (fun c => Event.aiChunk a.display_name c) ++
        [Event.aiEnd a.display_name (String.join chunks),
         Event.resultEvent
           { summary :=
               if 200 < lenStr (String.join chunks) then
                 takeStr (String.join chunks) 200 ++ "..."
               else String.join chunks,
             key_points := [], agreements := [], disagreements := [],
             recommendations := [], ai_contributions := [(a.name, 100)],
             total_messages := 1, total_rounds := 1, consensus_reached := true }
           (mkCtx user_input)]

/-- Recognizer for `Result` events. -/
def isResultEvent : Event → Bool
  | Event.resultEvent _ _ => true
  | _ => false

/-- Recognizer for `AITurnStart` events. -/
def isTurnStartEvent : Event → Bool
  | Event.aiTurnStart _ _ _ => true
  | _ => false

/-- Recognizer for `AITurnEnd` events. -/
def isTurnEndEvent : Event → Bool
  | Event.aiTurnEnd _ _ => true
  | _ => false

/-- Recognizer for `AIError` events. -/
def isAiErrorEvent : Event → Bool
  | Event.aiError _ _ => true
  | _ => false

/-- Recognizer for `RoundStart` events. -/
def isRoundStartEvent : Event → Bool
  | Event.roundStart _ _ => true
  | _ => false

/-- Recognizer for `DiscussionComplete` events. -/
def isCompleteEvent : Event → Bool
  | Event.discussionComplete _ _ => true
  | _ => false

/-! ### Concrete fixtures used by witnesses and counterexamples -/

/-- Adapter that always succeeds with two chunks. -/
def constOkAdapter : Adapter :=
  { name := "claude", display_name := "Claude", icon := "*", color := "blue",
    send := fun _ => (["I agree", " with that"], none) }

/-- Adapter whose `send` always raises `AdapterConnectionError`. -/
def constFailAdapter : Adapter :=
  { name := "codex", display_name := "Codex", icon := "*", color := "green",
    send := fun _ => ([], some (Exn.adapterConnection "connection refused")) }

/-- Empty database. -/
def emptyStore : Store := { sessions := [], messages := [], results := [] }

/-- Fixture message created later but listed first. -/
def msgLate : HistoryMessage :=
  { id := "m1", session_id := "s1", sender_type := SenderType.ai,
    sender_id := "claude", content := "first in list", created_at := "b",
    round_num := 1, metadata := [] }

/-- Fixture message created earlier but listed second. -/
def msgEarly : HistoryMessage :=
  { id := "m2", session_id := "s1", sender_type := SenderType.ai,
    sender_id := "gemini", content := "second in list", created_at := "a",
    round_num := 1, metadata := [] }

/-- Fixture session whose message list is not ordered by `created_at`. -/
def sessSwapped : Session :=
  { id := "s1", user_query := "q", task_type := "general",
    participating_ais := ["claude", "gemini"], total_rounds := 1,
    status := SessionStatus.completed, created_at := "t0", updated_at := "t1",
    messages := [msgLate, msgEarly], result := none }

/-- Fixture session for the round-trip witness. -/
def sessOrdered : Session :=
  { id := "s2", user_query := "q2", task_type := "code",
    participating_ais := ["claude"], total_rounds := 2,
    status := SessionStatus.completed, created_at := "t0", updated_at := "t9",
    messages :=
      [{ id := "w1", session_id := "s2", sender_type := SenderType.user,
         sender_id := "user", content := "ask", created_at := "a",
         round_num := 0, metadata := [] },
       { id := "w2", session_id := "s2", sender_type := SenderType.ai,
         sender_id := "claude", content := "answer", created_at := "c",
         round_num := 1, metadata := [("k", "v")] }],
    result := some
      { id := "r2", session_id := "s2", summary := "sum",
        key_points := ["kp"], consensus_reached := true, confidence := 0.9,
        created_at := "d" } }

/-- Store holding one unrelated session row (for the C10 witness). -/
def oneSessionStore : Store :=
  { sessions :=
      [{ id := "s9", user_query := "q", task_type := "general",
         participating_ais := [], total_rounds := 0,
         status := SessionStatus.in_progress, created_at := "t",
         updated_at := "t" }],
    messages := [], results := [] }

/-- Mutation operations on a `SharedContext` that touch the key-point
list. -/
inductive CtxOp
  | addKeyPoint (point : String)
  | addMessage (ai_name content : String) (round_num : Nat)

/-- Apply one context operation. -/
def applyCtxOp (ctx : Ctx) : CtxOp → Ctx
  | CtxOp.addKeyPoint p => add_key_point ctx p
  | CtxOp.addMessage a c r => add_message ctx a c r

/-- Apply a finite sequence of context operations to a fresh context. -/
def applyCtxOps (q : String) (ops : List CtxOp) : Ctx :=
  ops.foldl applyCtxOp (mkCtx q)

/-- Fixture opinion for the C4 witness. -/
def witOpinion : Opinion :=
  { ai_name := "claude", position := "use X", confidence := 1/2,
    reasoning := "r", supporting_points := [] }

/-- Fixture opinion list for the C4 witness. -/
def witOps : List (String × Opinion) := [("claude", witOpinion)]

/-- ESC-character detector on the embedded strings. -/
def hasEsc (s : String) : Bool := s.toList.contains '\x1b'

/-- `record_failure` at each instant of a list, in order. -/
def failTimes (cb : CircuitBreaker) (ts : List ℚ) : CircuitBreaker :=
  ts.foldl record_failure cb

/-! ### Helper lemmas -/

/-- Clamping into the unit interval is nonnegative. -/
theorem clamp01_nonneg (s : ℚ) : 0 ≤ max 0 (min 1 s) := le_max_left _ _

/-- Clamping into the unit interval is at most one. -/
theorem clamp01_le_one (s : ℚ) : max 0 (min 1 s) ≤ 1 :=
  max_le zero_le_one (min_le_left _ _)

/-- The round clamp lands in `[1, 7]`. -/
theorem roundClamp_bounds (b : Int) :
    1 ≤ (max 2 (min 7 b)).toNat ∧ (max 2 (min 7 b)).toNat ≤ 7 := by
  have h1 : (2 : Int) ≤ max 2 (min 7 b) := le_max_left _ _
  have h2 : max 2 (min 7 b) ≤ 7 := max_le (by norm_num) (min_le_left _ _)
  omega

/-- `calculateComplexity` is clamped into `[0, 1]`. -/
theorem calculateComplexity_bounds (p : String) (k : List String) :
    0 ≤ calculateComplexity p k ∧ calculateComplexity p k ≤ 1 := by
  unfold calculateComplexity
  exact ⟨clamp01_nonneg _, clamp01_le_one _⟩

/-- `suggestRounds` lands in `[1, 7]`. -/
theorem suggestRounds_bounds (c : ℚ) (t : TaskType) :
    1 ≤ suggestRounds c t ∧ suggestRounds c t ≤ 7 := by
  unfold suggestRounds
  exact roundClamp_bounds _

/-- `suggestAiCount` lands in `[1, 6]`. -/
theorem suggestAiCount_bounds (c : ℚ) (t : TaskType) :
    1 ≤ suggestAiCount c t ∧ suggestAiCount c t ≤ 6 := by
  unfold suggestAiCount
  split_ifs <;> omega

/-! ### C1 -/

/-- C1: for every prompt, `analyze` returns a task whose complexity lies
in `[0, 1]`, whose suggested rounds lie in `[1, 7]`, and whose suggested
adapter count lies in `[1, 6]`. -/
theorem C1_analyze_bounds (p : String) :
    0 ≤ (analyze p).complexity ∧ (analyze p).complexity ≤ 1 ∧
    1 ≤ (analyze p).suggested_rounds ∧ (analyze p).suggested_rounds ≤ 7 ∧
    1 ≤ (analyze p).suggested_ai_count ∧ (analyze p).suggested_ai_count ≤ 6 := by
  by_cases hsc : isSimpleChat (stripStr (lowerStr p)) = true
  · simp only [analyze, hsc, if_true]
    norm_num
  · simp only [analyze, hsc, if_false, Bool.false_eq_true]
    obtain ⟨hc1, hc2⟩ := calculateComplexity_bounds (stripStr (lowerStr p))
      (extractKeywords (stripStr (lowerStr p)))
    obtain ⟨hr1, hr2⟩ := suggestRounds_bounds
      (calculateComplexity (stripStr (lowerStr p))
        (extractKeywords (stripStr (lowerStr p))))
      (detectTaskType (stripStr (lowerStr p)))
    obtain ⟨ha1, ha2⟩ := suggestAiCount_bounds
      (calculateComplexity (stripStr (lowerStr p))
        (extractKeywords (stripStr (lowerStr p))))
      (detectTaskType (stripStr (lowerStr p)))
    exact ⟨hc1, hc2, hr1, hr2, ha1, ha2⟩

/-! ### C8 -/

/-- C8 counterexample: `"red cat dog fox"` is already lowercase and
stripped, has exactly 15 characters, four tokens, and contains no
technical indicator, yet `analyze` classifies it as GENERAL — not
SIMPLE_CHAT as claimed for prompts of at most 15 characters. -/
theorem C8_counterexample :
    lenStr (stripStr (lowerStr "red cat dog fox")) = 15 ∧
    (TECHNICAL_INDICATORS.any
        (fun t => containsSub (stripStr (lowerStr "red cat dog fox")) t)) = false ∧
    (analyze "red cat dog fox").task_type = TaskType.general ∧
    (analyze "red cat dog fox").task_type ≠ TaskType.simple_chat := by
  decide

/-- C8 (amended): a prompt whose trimmed lowercased form is empty, has at
most 3 tokens, or has at most 14 characters (strictly fewer than the
15-character limit) is classified SIMPLE_CHAT with complexity 0.1, one
round, one adapter and no keywords. -/
theorem C8_simple_chat_amended (p : String)
    (h : lenStr (stripStr (lowerStr p)) = 0 ∨
         (splitWs (stripStr (lowerStr p))).length ≤ 3 ∨
         lenStr (stripStr (lowerStr p)) ≤ 14) :
    (analyze p).task_type = TaskType.simple_chat ∧
    (analyze p).complexity = 0.1 ∧
    (analyze p).suggested_rounds = 1 ∧
    (analyze p).suggested_ai_count = 1 ∧
    (analyze p).keywords = [] := by
  have hS : SIMPLE_MAX_LENGTH = 15 := rfl
  have hsc : isSimpleChat (stripStr (lowerStr p)) = true := by
    unfold isSimpleChat
    split_ifs with h1 h2 h3 h4 h5 <;> try rfl
    · rcases h with h | h | h
      · exact absurd h h1
      · exact absurd h h4
      · rw [hS] at h2
        omega
    · rcases h with h | h | h
      · exact absurd h h1
      · exact absurd h h4
      · rw [hS] at h2
        omega
  simp only [analyze, hsc, if_true]
  exact ⟨trivial, trivial, trivial, trivial, trivial⟩

/-- C8 witness: `"ok then"` satisfies the amended hypothesis and is
classified SIMPLE_CHAT. -/
theorem C8_simple_chat_amended_witness :
    ((lenStr (stripStr (lowerStr "ok then")) = 0 ∨
      (splitWs (stripStr (lowerStr "ok then"))).length ≤ 3 ∨
      lenStr (stripStr (lowerStr "ok then")) ≤ 14) ∧
     (analyze "ok then").task_type = TaskType.simple_chat) :=
  ⟨by decide, (C8_simple_chat_amended "ok then" (by decide)).1⟩

/-! ### C10 -/

/-- C10: looking up a session id that no stored session carries returns
`None`, and being a pure sequence of `SELECT`s it leaves the store
unchanged. -/
theorem C10_get_session_missing (st : Store) (sid : String)
    (h : ∀ r ∈ st.sessions, r.id ≠ sid) :
    getSessionKeepingStore st sid = (none, st) := by
  have hf : st.sessions.find? (fun r => r.id = sid) = none := by
    rw [List.find?_eq_none]
    intro r hr
    simpa using h r hr
  unfold getSessionKeepingStore get_session
  rw [hf]

/-- C10 witness: a store holding only session `"s9"` yields `None` for id
`"zzz"` and is unchanged. -/
theorem C10_get_session_missing_witness :
    getSessionKeepingStore oneSessionStore "zzz" = (none, oneSessionStore) :=
  C10_get_session_missing oneSessionStore "zzz" (by decide)

/-! ### C9 -/

/-- A list not starting with ESC has no ANSI match at its head. -/
theorem ansiMatchRest_of_head_ne (c : Char) (l : List Char) (h : c ≠ '\x1b') :
    ansiMatchRest (c :: l) = none := by
  cases l with
  | nil => rfl
  | cons d rest => simp [ansiMatchRest, h]

/-- Scanning a list that contains no ESC character removes nothing. -/
theorem cleanAnsiAux_of_no_esc :
    ∀ (fuel : Nat) (cs : List Char), cs.length ≤ fuel →
      (∀ c ∈ cs, c ≠ '\x1b') → cleanAnsiAux fuel cs = cs := by
  intro fuel
  induction fuel with
  | zero =>
    intro cs hlen _
    rw [List.length_eq_zero.mp (Nat.le_zero.mp hlen)]
    rfl
  | succ n ih =>
    intro cs hlen hesc
    cases cs with
    | nil => rfl
    | cons c rest =>
      have hc : c ≠ '\x1b' := hesc c (List.mem_cons_self _ _)
      unfold cleanAnsiAux
      rw [ansiMatchRest_of_head_ne c rest hc]
      have : cleanAnsiAux n rest = rest := by
        apply ih
        · simp only [List.length_cons] at hlen
          omega
        · intro x hx
          exact hesc x (List.mem_cons_of_mem _ hx)
      rw [this]

/-- C9 counterexample: on `"\x1b\x1b[0mA"` one pass removes the CSI
sequence, gluing the leading ESC onto `A` into a fresh escape that a
second pass removes, so `clean_ansi` is not idempotent. -/
theorem C9_counterexample :
    clean_ansi (clean_ansi "\x1b\x1b[0mA") ≠ clean_ansi "\x1b\x1b[0mA" := by
  decide

/-- C9 (amended): `clean_ansi` is idempotent on every string whose
cleaned form contains no residual ESC character (removal can splice a
stranded ESC onto following text, re-creating an escape sequence; absent
a leftover ESC a second pass matches nothing). -/
theorem C9_clean_ansi_amended (s : String) (h : hasEsc (clean_ansi s) = false) :
    clean_ansi (clean_ansi s) = clean_ansi s := by
  have hmem : ∀ c ∈ (clean_ansi s).toList, c ≠ '\x1b' := by
    intro c hc
    unfold hasEsc at h
    intro hcEq
    rw [hcEq] at hc
    have ht : (clean_ansi s).toList.contains '\x1b' = true :=
      List.elem_eq_true_of_mem hc
    rw [ht] at h
    exact Bool.noConfusion h
  show String.mk (cleanAnsiAux (clean_ansi s).toList.length (clean_ansi s).toList) =
    clean_ansi s
  rw [cleanAnsiAux_of_no_esc _ _ le_rfl hmem]
  rfl

/-- C9 witness: the amended theorem applies to `"x\x1b[31mred"`, whose
cleaned form `"xred"` has no residual ESC. -/
theorem C9_clean_ansi_amended_witness :
    hasEsc (clean_ansi "x\x1b[31mred") = false ∧
    clean_ansi (clean_ansi "x\x1b[31mred") = clean_ansi "x\x1b[31mred" :=
  ⟨by decide, C9_clean_ansi_amended "x\x1b[31mred" (by decide)⟩

/-! ### C6 -/

/-- Key-point list invariant: at most 20 entries, each at most 100
characters. -/
def KpInv (kps : List String) : Prop :=
  kps.length ≤ 20 ∧ ∀ x ∈ kps, lenStr x ≤ 100

/-- Truncation to `n` characters bounds the length by `n`. -/
theorem lenStr_takeStr_le (s : String) (n : Nat) : lenStr (takeStr s n) ≤ n := by
  simp [lenStr, takeStr]

/-- `pushKeyPoint` preserves the invariant when the new entry is short. -/
theorem pushKeyPoint_inv (kps : List String) (p : String)
    (h : KpInv kps) (hp : lenStr p ≤ 100) : KpInv (pushKeyPoint kps p) := by
  obtain ⟨h1, h2⟩ := h
  simp only [pushKeyPoint, KpInv]
  split_ifs with h20
  · constructor
    · have := List.length_tail (kps ++ [p])
      simp only [List.length_append, List.length_singleton] at this ⊢
      omega
    · intro x hx
      have hx' : x ∈ kps ++ [p] := List.mem_of_mem_tail hx
      rcases List.mem_append.mp hx' with hk | hp'
      · exact h2 x hk
      · rw [List.mem_singleton.mp hp']
        exact hp
  · constructor
    · simp only [List.length_append, List.length_singleton] at h20 ⊢
      omega
    · intro x hx
      rcases List.mem_append.mp hx with hk | hp'
      · exact h2 x hk
      · rw [List.mem_singleton.mp hp']
        exact hp

/-- `extractKeyPointLine` preserves the invariant. -/
theorem extractKeyPointLine_inv (kps : List String) (line : String)
    (h : KpInv kps) : KpInv (extractKeyPointLine kps line) := by
  simp only [extractKeyPointLine]
  split_ifs with hsel hmem
  · exact h
  · exact pushKeyPoint_inv _ _ h (lenStr_takeStr_le _ _)
  · exact h

/-- `_extract_key_points` preserves the invariant. -/
theorem extractKeyPoints_inv (content : String) :
    ∀ (kps : List String), KpInv kps → KpInv (extractKeyPoints kps content) := by
  unfold extractKeyPoints
  induction splitNl content with
  | nil => intro kps h; exact h
  | cons line rest ih =>
    intro kps h
    exact ih _ (extractKeyPointLine_inv kps line h)

/-- `add_key_point` preserves the invariant. -/
theorem add_key_point_inv (ctx : Ctx) (p : String)
    (h : KpInv ctx.key_points) : KpInv (add_key_point ctx p).key_points := by
  simp only [add_key_point]
  split_ifs with hcond
  · exact pushKeyPoint_inv _ _ h (lenStr_takeStr_le _ _)
  · exact h

/-- `add_message` preserves the invariant. -/
theorem add_message_inv (ctx : Ctx) (a c : String) (r : Nat)
    (h : KpInv ctx.key_points) : KpInv (add_message ctx a c r).key_points :=
  extractKeyPoints_inv c ctx.key_points h

/-- Every context operation preserves the invariant. -/
theorem applyCtxOp_inv (ctx : Ctx) (op : CtxOp)
    (h : KpInv ctx.key_points) : KpInv (applyCtxOp ctx op).key_points := by
  cases op with
  | addKeyPoint p => exact add_key_point_inv ctx p h
  | addMessage a c r => exact add_message_inv ctx a c r h

/-- C6 (amended): after any finite sequence of `add_key_point` and
key-point-extracting `add_message` calls on a fresh context, the
key-point list has at most 20 entries and every entry has at most 100
characters.  (The uniqueness clause of the original claim is dropped:
entries equal under case-insensitive — or even exact — comparison can
co-exist, see the counterexample.) -/
theorem C6_key_points_amended (q : String) (ops : List CtxOp) :
    (applyCtxOps q ops).key_points.length ≤ 20 ∧
    ∀ kp ∈ (applyCtxOps q ops).key_points, lenStr kp ≤ 100 := by
  have : ∀ (ops : List CtxOp) (ctx : Ctx), KpInv ctx.key_points →
      KpInv (ops.foldl applyCtxOp ctx).key_points := by
    intro ops
    induction ops with
    | nil => intro ctx h; exact h
    | cons op rest ih => intro ctx h; exact ih _ (applyCtxOp_inv ctx op h)
  exact this ops (mkCtx q) ⟨by simp [mkCtx], by simp [mkCtx]⟩

/-- C6 counterexample: adding `"abc"` then `"ABC"` leaves two entries
that are equal under case-insensitive comparison, contradicting the
claimed case-insensitive uniqueness. -/
theorem C6_counterexample :
    (applyCtxOps "q" [CtxOp.addKeyPoint "abc", CtxOp.addKeyPoint "ABC"]).key_points
      = ["abc", "ABC"] ∧
    lowerStr "abc" = lowerStr "ABC" ∧ "abc" ≠ "ABC" := by
  decide

/-! ### C5 -/

/-- `record_failure` always increments the failure counter. -/
theorem failTimes_count (ts : List ℚ) :
    ∀ cb : CircuitBreaker,
      (failTimes cb ts).failure_count = cb.failure_count + ts.length := by
  induction ts with
  | nil => intro cb; simp [failTimes]
  | cons t rest ih =>
    intro cb
    have step : (record_failure cb t).failure_count = cb.failure_count + 1 := by
      simp only [record_failure]
      split_ifs <;> rfl
    calc (failTimes cb (t :: rest)).failure_count
        = (failTimes (record_failure cb t) rest).failure_count := rfl
      _ = (record_failure cb t).failure_count + rest.length := ih _
      _ = cb.failure_count + (rest.length + 1) := by rw [step]; omega
      _ = cb.failure_count + (t :: rest).length := by simp

/-- `record_failure` never changes the threshold. -/
theorem failTimes_threshold (ts : List ℚ) :
    ∀ cb : CircuitBreaker,
      (failTimes cb ts).failure_threshold = cb.failure_threshold := by
  induction ts with
  | nil => intro cb; rfl
  | cons t rest ih =>
    intro cb
    have step : (record_failure cb t).failure_threshold = cb.failure_threshold := by
      simp only [record_failure]
      split_ifs <;> rfl
    calc (failTimes cb (t :: rest)).failure_threshold
        = (record_failure cb t).failure_threshold := ih _
      _ = cb.failure_threshold := step

/-- Fewer consecutive failures than the threshold leave the state CLOSED. -/
theorem failTimes_closed (ts : List ℚ) :
    ∀ cb : CircuitBreaker, cb.state = CBState.closed →
      cb.failure_count + ts.length < cb.failure_threshold →
      (failTimes cb ts).state = CBState.closed := by
  induction ts with
  | nil => intro cb hs _; exact hs
  | cons t rest ih =>
    intro cb hs hlt
    have hstep : (record_failure cb t).state = CBState.closed ∧
        (record_failure cb t).failure_count = cb.failure_count + 1 ∧
        (record_failure cb t).failure_threshold = cb.failure_threshold := by
      simp only [record_failure]
      split_ifs with hge
      · exfalso
        simp only [List.length_cons] at hlt
        omega
      · exact ⟨hs, rfl, rfl⟩
    apply ih
    · exact hstep.1
    · rw [hstep.2.1, hstep.2.2]
      simp only [List.length_cons] at hlt
      omega

/-- Once OPEN, further recorded failures keep the breaker OPEN. -/
theorem failTimes_stays_opened (ts : List ℚ) :
    ∀ cb : CircuitBreaker, cb.state = CBState.opened →
      (failTimes cb ts).state = CBState.opened := by
  induction ts with
  | nil => intro cb hs; exact hs
  | cons t rest ih =>
    intro cb hs
    apply ih
    simp only [record_failure]
    split_ifs
    · rfl
    · exact hs

/-- Reaching the threshold (from CLOSED, counting from zero) opens the
breaker. -/
theorem failTimes_opened (ts : List ℚ) :
    ∀ cb : CircuitBreaker,
      0 < cb.failure_threshold →
      cb.failure_threshold ≤ cb.failure_count + ts.length →
      (cb.failure_threshold ≤ cb.failure_count → cb.state = CBState.opened) →
      (failTimes cb ts).state = CBState.opened := by
  induction ts with
  | nil =>
    intro cb _ hge himp
    exact himp (by simpa using hge)
  | cons t rest ih =>
    intro cb hpos hge himp
    apply ih
    · have hth : (record_failure cb t).failure_threshold = cb.failure_threshold := by
        simp only [record_failure]
        split_ifs <;> rfl
      rw [hth]
      exact hpos
    · have hth : (record_failure cb t).failure_threshold = cb.failure_threshold := by
        simp only [record_failure]
        split_ifs <;> rfl
      have hcnt : (record_failure cb t).failure_count = cb.failure_count + 1 := by
        simp only [record_failure]
        split_ifs <;> rfl
      rw [hth, hcnt]
      simp only [List.length_cons] at hge
      omega
    · intro hreach
      have hth : (record_failure cb t).failure_threshold = cb.failure_threshold := by
        simp only [record_failure]
        split_ifs <;> rfl
      have hcnt : (record_failure cb t).failure_count = cb.failure_count + 1 := by
        simp only [record_failure]
        split_ifs <;> rfl
      rw [hth, hcnt] at hreach
      simp only [record_failure]
      rw [if_pos hreach]

/-- The last recorded failure instant is the last element of the list. -/
theorem failTimes_last (ts : List ℚ) (lt : ℚ) (h : ts.getLast? = some lt) :
    ∀ cb : CircuitBreaker,
      (failTimes cb ts).last_failure_time = some lt := by
  induction ts with
  | nil => simp at h
  | cons t rest ih =>
    intro cb
    cases hr : rest with
    | nil =>
      rw [hr] at h
      simp at h
      show (failTimes cb [t]).last_failure_time = some lt
      simp only [failTimes, List.foldl_cons, List.foldl_nil, record_failure]
      split_ifs <;> simp [h]
    | cons r2 rest2 =>
      have hlast : rest.getLast? = some lt := by
        rw [hr] at h ⊢
        simpa [List.getLast?_cons_cons] using h
      rw [← hr]
      exact ih hlast _

/-- C5: starting CLOSED with zero failures, exactly `failure_threshold`
consecutive recorded failures drive the breaker OPEN; a subsequent
`execute` before `recovery_timeout` has elapsed since the last failure is
rejected with `CircuitBreakerOpenError` without invoking the operation
and without changing the breaker; fewer consecutive failures leave it
CLOSED. -/
theorem C5_circuit_breaker (n : Nat) (rt : ℚ) (ho : Nat) (ts : List ℚ)
    (t lt : ℚ) (hn : 0 < n) (hlen : ts.length = n)
    (hlast : ts.getLast? = some lt) (hearly : t - lt < rt) :
    (failTimes (mkCircuitBreaker n rt ho) ts).state = CBState.opened ∧
    (∀ opSuccess : Bool,
      cbExecute (failTimes (mkCircuitBreaker n rt ho) ts) t opSuccess =
        (ExecOutcome.rejected, failTimes (mkCircuitBreaker n rt ho) ts)) ∧
    (∀ ts' : List ℚ, ts'.length < n →
      (failTimes (mkCircuitBreaker n rt ho) ts').state = CBState.closed) := by
  have hopen : (failTimes (mkCircuitBreaker n rt ho) ts).state = CBState.opened := by
    apply failTimes_opened
    · exact hn
    · simp [mkCircuitBreaker, hlen]
    · intro hreach
      simp [mkCircuitBreaker] at hreach
      omega
  refine ⟨hopen, ?_, ?_⟩
  · intro opSuccess
    have hrec : (failTimes (mkCircuitBreaker n rt ho) ts).recovery_timeout = rt := by
      have : ∀ (l : List ℚ) (cb : CircuitBreaker),
          (failTimes cb l).recovery_timeout = cb.recovery_timeout := by
        intro l
        induction l with
        | nil => intro cb; rfl
        | cons x xs ih =>
          intro cb
          calc (failTimes cb (x :: xs)).recovery_timeout
              = (record_failure cb x).recovery_timeout := ih _
            _ = cb.recovery_timeout := by
                simp only [record_failure]
                split_ifs <;> rfl
      exact this ts _
    have hlft := failTimes_last ts lt hlast (mkCircuitBreaker n rt ho)
    have hce : can_execute (failTimes (mkCircuitBreaker n rt ho) ts) t =
        (false, failTimes (mkCircuitBreaker n rt ho) ts) := by
      simp only [can_execute, hopen, hlft, hrec]
      rw [if_neg (not_le.mpr hearly)]
    simp only [cbExecute, hce]
  · intro ts' hlt
    apply failTimes_closed
    · rfl
    · simp [mkCircuitBreaker, hlt]

/-- C5 witness: threshold 2, recovery 30; failures at instants 0 and 1
open the breaker, a call at instant 5 is rejected, and a single failure
leaves it CLOSED. -/
theorem C5_circuit_breaker_witness :
    (failTimes (mkCircuitBreaker 2 30 1) [0, 1]).state = CBState.opened ∧
    cbExecute (failTimes (mkCircuitBreaker 2 30 1) [0, 1]) 5 true =
      (ExecOutcome.rejected, failTimes (mkCircuitBreaker 2 30 1) [0, 1]) ∧
    (failTimes (mkCircuitBreaker 2 30 1) [0]).state = CBState.closed := by
  obtain ⟨h1, h2, h3⟩ := C5_circuit_breaker 2 30 1 [0, 1] 5 1
    (by norm_num) (by norm_num) (by norm_num) (by norm_num)
  exact ⟨h1, h2 true, h3 [0] (by norm_num)⟩

/-! ### C7 -/

/-- A nonzero fold of `max` over a list is attained by a list element. -/
theorem foldr_max_mem (l : List Nat) (h : l.foldr max 0 ≠ 0) :
    l.foldr max 0 ∈ l := by
  induction l with
  | nil => simp at h
  | cons x xs ih =>
    simp only [List.foldr_cons]
    rcases le_total (xs.foldr max 0) x with hle | hle
    · rw [max_eq_left hle]
      exact List.mem_cons_self _ _
    · rw [max_eq_right hle]
      simp only [List.foldr_cons, max_eq_right hle] at h
      exact List.mem_cons_of_mem _ (ih h)

/-- Every list element is bounded by the fold of `max`. -/
theorem le_foldr_max (l : List Nat) : ∀ x ∈ l, x ≤ l.foldr max 0 := by
  induction l with
  | nil => intro x hx; simp at hx
  | cons y ys ih =>
    intro x hx
    rcases List.mem_cons.mp hx with hx | hx
    · rw [hx]
      exact le_max_left _ _
    · exact le_trans (ih x hx) (le_max_right _ _)

/-- `firstWithScore` returns the first entry attaining `m`: the list
splits into a prefix avoiding `m`, the returned entry, and a tail. -/
theorem firstWithScore_decomp (m : Nat) :
    ∀ ps : List (TaskType × Nat), m ∈ ps.map (·.2) →
      ∃ pre entry post, ps = pre ++ entry :: post ∧
        firstWithScore m ps = entry.1 ∧ entry.2 = m ∧ ∀ q ∈ pre, q.2 ≠ m := by
  intro ps
  induction ps with
  | nil =>
    intro hm
    simp at hm
  | cons x rest ih =>
    intro hm
    obtain ⟨t, s⟩ := x
    by_cases hx : s = m
    · refine ⟨[], (t, s), rest, by simp, ?_, hx, by simp⟩
      simp [firstWithScore, hx]
    · have hm' : m ∈ rest.map (·.2) := by
        rcases List.mem_map.mp hm with ⟨q, hq, hqm⟩
        rcases List.mem_cons.mp hq with hq | hq
        · exfalso
          apply hx
          rw [hq] at hqm
          exact hqm
        · exact List.mem_map.mpr ⟨q, hq, hqm⟩
      obtain ⟨pre, entry, post, heq, hfw, hsnd, hpre⟩ := ih hm'
      refine ⟨(t, s) :: pre, entry, post, by rw [heq]; rfl, ?_, hsnd, ?_⟩
      · simpa [firstWithScore, hx] using hfw
      · intro q hq
        rcases List.mem_cons.mp hq with hq | hq
        · rw [hq]
          exact hx
        · exact hpre q hq

/-- C7 counterexample: `"debug and repair broken code segment"` scores 1
for both DEBUG and CODE (all other kinds 0), and `analyze` picks CODE —
the tie is won by CODE, not DEBUG as the claimed priority order states. -/
theorem C7_counterexample :
    patternScore (stripStr (lowerStr "debug and repair broken code segment"))
      DEBUG_PATTERNS = 1 ∧
    patternScore (stripStr (lowerStr "debug and repair broken code segment"))
      CODE_PATTERNS = 1 ∧
    isSimpleChat (stripStr (lowerStr "debug and repair broken code segment")) = false ∧
    (analyze "debug and repair broken code segment").task_type = TaskType.code ∧
    (analyze "debug and repair broken code segment").task_type ≠ TaskType.debug := by
  decide

/-- C7 (amended): on the non-simple-chat path, when all seven kind scores
are zero the kind is GENERAL; otherwise `analyze` picks the first kind
attaining the maximal score in the fixed order CODE > DESIGN > ANALYSIS >
CREATIVE > RESEARCH > DEBUG > EXPLAIN (the dict insertion order of
`_detect_task_type`), so ties are broken by that order — not by the
DEBUG-first order the claim states. -/
theorem C7_tie_priority_amended (p : String)
    (h : isSimpleChat (stripStr (lowerStr p)) = false) :
    (((typeScorePairs (stripStr (lowerStr p))).map (·.2)).foldr max 0 = 0 →
      (analyze p).task_type = TaskType.general) ∧
    (((typeScorePairs (stripStr (lowerStr p))).map (·.2)).foldr max 0 ≠ 0 →
      ∃ pre entry post,
        typeScorePairs (stripStr (lowerStr p)) = pre ++ entry :: post ∧
        (analyze p).task_type = entry.1 ∧
        entry.2 = ((typeScorePairs (stripStr (lowerStr p))).map (·.2)).foldr max 0 ∧
        ∀ q ∈ pre,
          q.2 < ((typeScorePairs (stripStr (lowerStr p))).map (·.2)).foldr max 0) := by
  have hdet : (analyze p).task_type = detectTaskType (stripStr (lowerStr p)) := by
    simp only [analyze, h, Bool.false_eq_true, if_false]
  constructor
  · intro h0
    rw [hdet]
    unfold detectTaskType
    rw [if_pos h0]
  · intro h0
    rw [hdet]
    unfold detectTaskType
    rw [if_neg h0]
    obtain ⟨pre, entry, post, heq, hfw, hsnd, hpre⟩ :=
      firstWithScore_decomp _ (typeScorePairs (stripStr (lowerStr p)))
        (foldr_max_mem _ h0)
    refine ⟨pre, entry, post, heq, hfw, hsnd, ?_⟩
    intro q hq
    have hqmem : q.2 ∈ (typeScorePairs (stripStr (lowerStr p))).map (·.2) := by
      apply List.mem_map.mpr
      refine ⟨q, ?_, rfl⟩
      rw [heq]
      exact List.mem_append.mpr (Or.inl hq)
    exact lt_of_le_of_ne (le_foldr_max _ _ hqmem) (hpre q hq)

/-- C7 witness: `"compare and analyze the database code"` is not simple
chat and has a nonzero maximal score, so the amended tie-break statement
applies to it. -/
theorem C7_tie_priority_amended_witness :
    isSimpleChat (stripStr (lowerStr "compare and analyze the database code")) = false ∧
    (∃ pre entry post,
      typeScorePairs (stripStr (lowerStr "compare and analyze the database code")) =
        pre ++ entry :: post ∧
      (analyze "compare and analyze the database code").task_type = entry.1 ∧
      entry.2 = ((typeScorePairs
        (stripStr (lowerStr "compare and analyze the database code"))).map
          (·.2)).foldr max 0 ∧
      ∀ q ∈ pre,
        q.2 < ((typeScorePairs
          (stripStr (lowerStr "compare and analyze the database code"))).map
            (·.2)).foldr max 0) :=
  ⟨by decide,
   (C7_tie_priority_amended "compare and analyze the database code" (by decide)).2
     (by decide)⟩

/-! ### C4 -/

/-- Every strength value lies in `[1/2, 1]` (table values are 0.7–0.95,
the default is 0.5). -/
theorem aiStrength_bounds (name : String) (t : TaskType) :
    1/2 ≤ aiStrength name t ∧ aiStrength name t ≤ 1 := by
  unfold aiStrength
  split_ifs
  · cases t <;> norm_num [claudeStrength]
  · cases t <;> norm_num [codexStrength]
  · cases t <;> norm_num [geminiStrength]
  · cases t <;> norm_num [ollamaStrength]
  · norm_num

/-- Vote-list invariant: every aggregated weight is at least
`0.5 · 0.3 = 3/20`. -/
def VotesInv (votes : List VotedOption) : Prop :=
  ∀ v ∈ votes, 3/20 ≤ v.weight

/-- A single weighted vote is at least `3/20`. -/
theorem voteWeight_lb (name : String) (t : TaskType) (c : ℚ)
    (hc : 3/10 ≤ c) : 3/20 ≤ aiStrength name t * c := by
  obtain ⟨hs, _⟩ := aiStrength_bounds name t
  calc (3 : ℚ)/20 = (1/2) * (3/10) := by norm_num
    _ ≤ aiStrength name t * c :=
        mul_le_mul hs hc (by norm_num) (le_trans (by norm_num) hs)

/-- `addVote` preserves the weight lower bound. -/
theorem addVote_inv (t : TaskType) (votes : List VotedOption)
    (name : String) (op : Opinion) (hc : 3/10 ≤ op.confidence)
    (h : VotesInv votes) : VotesInv (addVote t votes name op) := by
  unfold addVote
  split_ifs with hany
  · intro v hv
    rcases List.mem_map.mp hv with ⟨w, hw, hweq⟩
    rw [← hweq]
    show (3:ℚ)/20 ≤ (if w.position = op.position then
        { w with supporters := w.supporters ++ [name],
                 weight := w.weight + aiStrength name t * op.confidence }
      else w).weight
    by_cases hpos : w.position = op.position
    · rw [if_pos hpos]
      have h1 := h w hw
      have h2 := voteWeight_lb name t op.confidence hc
      show (3:ℚ)/20 ≤ w.weight + aiStrength name t * op.confidence
      linarith
    · rw [if_neg hpos]
      exact h w hw
  · intro v hv
    rcases List.mem_append.mp hv with hv | hv
    · exact h v hv
    · rw [List.mem_singleton.mp hv]
      exact voteWeight_lb name t op.confidence hc

/-- All aggregated vote weights observe the lower bound. -/
theorem buildVotes_inv (t : TaskType) (ops : List (String × Opinion))
    (hconf : ∀ p ∈ ops, 3/10 ≤ p.2.confidence) :
    VotesInv (buildVotes t ops) := by
  have : ∀ (l : List (String × Opinion)) (acc : List VotedOption),
      (∀ p ∈ l, 3/10 ≤ p.2.confidence) → VotesInv acc →
      VotesInv (l.foldl (fun votes p => addVote t votes p.1 p.2) acc) := by
    intro l
    induction l with
    | nil => intro acc _ hacc; exact hacc
    | cons p rest ih =>
      intro acc hcf hacc
      exact ih _ (fun q hq => hcf q (List.mem_cons_of_mem _ hq))
        (addVote_inv t acc p.1 p.2 (hcf p (List.mem_cons_self _ _)) hacc)
  exact this ops [] hconf (by intro v hv; simp at hv)

/-- `addVote` never shrinks the vote list. -/
theorem addVote_length (t : TaskType) (votes : List VotedOption)
    (name : String) (op : Opinion) :
    votes.length ≤ (addVote t votes name op).length := by
  unfold addVote
  split_ifs
  · rw [List.length_map]
  · rw [List.length_append]
    omega

/-- A nonempty opinion list produces a nonempty vote list. -/
theorem buildVotes_ne_nil (t : TaskType) (ops : List (String × Opinion))
    (h : ops ≠ []) : buildVotes t ops ≠ [] := by
  have grow : ∀ (l : List (String × Opinion)) (acc : List VotedOption),
      acc.length ≤ (l.foldl (fun votes p => addVote t votes p.1 p.2) acc).length := by
    intro l
    induction l with
    | nil => intro acc; exact le_rfl
    | cons p rest ih =>
      intro acc
      exact le_trans (addVote_length t acc p.1 p.2) (ih _)
  cases ops with
  | nil => exact absurd rfl h
  | cons p rest =>
    have h1 : 1 ≤ (addVote t [] p.1 p.2).length := by
      unfold addVote
      simp
    have h2 : (addVote t [] p.1 p.2).length ≤ (buildVotes t (p :: rest)).length :=
      grow rest (addVote t [] p.1 p.2)
    intro hnil
    rw [hnil] at h2
    simp only [List.length_nil, Nat.le_zero] at h2
    omega

/-- Membership is preserved by the weight-ordered insertion. -/
theorem mem_insertByWeight (x y : VotedOption) (l : List VotedOption) :
    y ∈ insertByWeight x l ↔ y = x ∨ y ∈ l := by
  induction l with
  | nil => simp [insertByWeight]
  | cons z zs ih =>
    unfold insertByWeight
    split_ifs
    · simp
    · simp only [List.mem_cons, ih]
      tauto

/-- Membership is preserved by the stable weight sort. -/
theorem mem_sortByWeight (y : VotedOption) (l : List VotedOption) :
    y ∈ sortByWeight l ↔ y ∈ l := by
  induction l with
  | nil => simp [sortByWeight]
  | cons x xs ih =>
    unfold sortByWeight
    rw [mem_insertByWeight, ih]
    simp

/-- Inserting adds the inserted weight to the total. -/
theorem totalWeight_insertByWeight (x : VotedOption) (l : List VotedOption) :
    totalWeight (insertByWeight x l) = x.weight + totalWeight l := by
  induction l with
  | nil => simp [insertByWeight, totalWeight]
  | cons z zs ih =>
    unfold insertByWeight
    split_ifs
    · simp [totalWeight]
    · simp only [totalWeight, List.map_cons, List.sum_cons] at ih ⊢
      rw [ih]
      ring

/-- Sorting preserves the total weight. -/
theorem totalWeight_sortByWeight (l : List VotedOption) :
    totalWeight (sortByWeight l) = totalWeight l := by
  induction l with
  | nil => rfl
  | cons x xs ih =>
    unfold sortByWeight
    rw [totalWeight_insertByWeight]
    simp only [totalWeight, List.map_cons, List.sum_cons] at ih ⊢
    rw [ih]

/-- Weight lower bound transported to the ranked option list. -/
theorem sortedOptions_inv (t : TaskType) (ops : List (String × Opinion))
    (hconf : ∀ p ∈ ops, 3/10 ≤ p.2.confidence) :
    ∀ v ∈ sortedOptions t ops, 3/20 ≤ v.weight := by
  intro v hv
  exact buildVotes_inv t ops hconf v
    ((mem_sortByWeight v (buildVotes t ops)).mp hv)

/-- A tail's total weight is nonnegative when its members observe the
lower bound. -/
theorem totalWeight_nonneg (l : List VotedOption)
    (h : ∀ v ∈ l, 3/20 ≤ v.weight) : 0 ≤ totalWeight l := by
  unfold totalWeight
  apply List.sum_nonneg
  intro x hx
  rcases List.mem_map.mp hx with ⟨v, hv, hveq⟩
  rw [← hveq]
  exact le_trans (by norm_num) (h v hv)

/-- C4 (as claimed): with at least one opinion whose confidences lie in
the extractor's range `[0.3, 1]`, when at least two ranked options exist
and the relative gap `(top − second)/top` is below `0.1` the resolution
is USER_DECISION carrying exactly the top two options; otherwise it is
AUTO_RESOLVED whose winner is `options[0].position` and whose confidence
is the top weight over the (positive) total, lying in `[0, 1]`. -/
theorem C4_resolve_spec (t : TaskType) (ops : List (String × Opinion))
    (hconf : ∀ p ∈ ops, 3/10 ≤ p.2.confidence ∧ p.2.confidence ≤ 1) :
    (∀ top second rest2,
      sortedOptions t ops = top :: second :: rest2 →
      ((top.weight - second.weight) / top.weight < 0.1 →
        (resolve t ops).type = ResolutionType.user_decision ∧
        (resolve t ops).options = [top, second]) ∧
      (¬ (top.weight - second.weight) / top.weight < 0.1 →
        (resolve t ops).type = ResolutionType.auto_resolved ∧
        (resolve t ops).winner = some top.position ∧
        (resolve t ops).options = sortedOptions t ops ∧
        0 < totalWeight (sortedOptions t ops) ∧
        (resolve t ops).confidence = top.weight / totalWeight (sortedOptions t ops) ∧
        0 ≤ (resolve t ops).confidence ∧ (resolve t ops).confidence ≤ 1)) ∧
    (∀ top, sortedOptions t ops = [top] →
      (resolve t ops).type = ResolutionType.auto_resolved ∧
      (resolve t ops).winner = some top.position ∧
      (resolve t ops).options = sortedOptions t ops ∧
      (resolve t ops).confidence = 1) := by
  have hinv := sortedOptions_inv t ops (fun p hp => (hconf p hp).1)
  constructor
  · intro top second rest2 hs
    have htop : 3/20 ≤ top.weight := hinv top (by rw [hs]; exact List.mem_cons_self _ _)
    have hsecond : 3/20 ≤ second.weight := hinv second
      (by rw [hs]; exact List.mem_cons_of_mem _ (List.mem_cons_self _ _))
    have htoppos : 0 < top.weight := lt_of_lt_of_le (by norm_num) htop
    have hres : resolve t ops =
        (if (if 0 < top.weight then (top.weight - second.weight) / top.weight else 0)
            < 0.1 then
          { type := ResolutionType.user_decision, winner := none,
            options := (top :: second :: rest2).take 2, explanation := "",
            confidence :=
              if 0 < top.weight then (top.weight - second.weight) / top.weight
              else 0 }
        else
          { type := ResolutionType.auto_resolved, winner := some top.position,
            options := top :: second :: rest2, explanation := "",
            confidence := top.weight / totalWeight (top :: second :: rest2) }) := by
      unfold resolve
      rw [hs]
    rw [if_pos htoppos] at hres
    constructor
    · intro hgap
      rw [hres, if_pos hgap]
      exact ⟨rfl, by simp⟩
    · intro hgap
      rw [hres, if_neg hgap]
      have htotal : 0 < totalWeight (sortedOptions t ops) := by
        rw [hs]
        have hrest : 0 ≤ totalWeight rest2 := by
          apply totalWeight_nonneg
          intro v hv
          exact hinv v (by
            rw [hs]
            exact List.mem_cons_of_mem _ (List.mem_cons_of_mem _ hv))
        simp only [totalWeight, List.map_cons, List.sum_cons]
        simp only [totalWeight] at hrest
        linarith
      have hle : top.weight ≤ totalWeight (sortedOptions t ops) := by
        rw [hs]
        have hrest : 0 ≤ totalWeight rest2 := by
          apply totalWeight_nonneg
          intro v hv
          exact hinv v (by
            rw [hs]
            exact List.mem_cons_of_mem _ (List.mem_cons_of_mem _ hv))
        simp only [totalWeight, List.map_cons, List.sum_cons]
        simp only [totalWeight] at hrest
        linarith
      refine ⟨rfl, rfl, by rw [hs], htotal, by rw [hs], ?_, ?_⟩


      · show 0 ≤ top.weight / totalWeight (top :: second :: rest2)
        rw [← hs]
        exact div_nonneg (le_of_lt htoppos) (le_of_lt htotal)
      · show top.weight / totalWeight (top :: second :: rest2) ≤ 1
        rw [← hs]
        exact (div_le_one htotal).mpr hle
  · intro top hs
    have htop : 3/20 ≤ top.weight := hinv top (by rw [hs]; exact List.mem_cons_self _ _)
    have htoppos : 0 < top.weight := lt_of_lt_of_le (by norm_num) htop
    have hres : resolve t ops =
        { type := ResolutionType.auto_resolved, winner := some top.position,
          options := [top], explanation := "",
          confidence := top.weight / totalWeight [top] } := by
      unfold resolve
      rw [hs]
    rw [hres]
    refine ⟨rfl, rfl, by rw [hs], ?_⟩
    show top.weight / totalWeight [top] = 1
    have : totalWeight [top] = top.weight := by
      simp [totalWeight]
    rw [this]
    exact div_self (ne_of_gt htoppos)

/-- C4 witness: a single claude opinion with confidence 1/2 on a CODE
task resolves AUTO_RESOLVED with winner `"use X"` and confidence 1. -/
theorem C4_resolve_spec_witness :
    (∀ p ∈ witOps, 3/10 ≤ p.2.confidence ∧ p.2.confidence ≤ 1) ∧
    (resolve TaskType.code witOps).type = ResolutionType.auto_resolved ∧
    (resolve TaskType.code witOps).winner = some "use X" ∧
    (resolve TaskType.code witOps).confidence = 1 := by
  have hconf : ∀ p ∈ witOps, 3/10 ≤ p.2.confidence ∧ p.2.confidence ≤ 1 := by
    intro p hp
    simp only [witOps, List.mem_singleton] at hp
    rw [hp]
    exact ⟨by norm_num [witOpinion], by norm_num [witOpinion]⟩
  have hl : lowerStr "claude" = "claude" := by decide
  have hstr : aiStrength "claude" TaskType.code = 0.9 := by
    unfold aiStrength
    rw [if_pos hl]
    norm_num [claudeStrength]
  have hs : sortedOptions TaskType.code witOps =
      [{ position := "use X", supporters := ["claude"], weight := (9:ℚ)/20,
         reasoning := "r" }] := by
    simp only [sortedOptions, buildVotes, witOps, List.foldl_cons, List.foldl_nil,
      addVote, List.any_nil, Bool.false_eq_true, if_false, List.nil_append,
      sortByWeight, insertByWeight, witOpinion, hstr]
    norm_num
  obtain ⟨h1, h2, h3, h4⟩ := (C4_resolve_spec TaskType.code witOps hconf).2 _ hs
  exact ⟨hconf, h1, h2, h4⟩

/-! ### C3 -/

/-- `find?` skips a prefix on which the predicate fails. -/
theorem find?_append_of_none {α : Type} (p : α → Bool) (l₁ l₂ : List α)
    (h : ∀ x ∈ l₁, p x = false) : (l₁ ++ l₂).find? p = l₂.find? p := by
  induction l₁ with
  | nil => rfl
  | cons x xs ih =>
    have hx := h x (List.mem_cons_self _ _)
    rw [List.cons_append]
    rw [List.find?_cons_of_neg _ (by rw [hx]; exact Bool.false_ne_true)]
    exact ih (fun y hy => h y (List.mem_cons_of_mem _ hy))

/-- Folding message upserts with pairwise-distinct ids keeps the new
messages in order at the end and filters the accumulator by id. -/
theorem foldl_upsertMessage :
    ∀ (msgs : List HistoryMessage) (acc : List HistoryMessage),
      msgs.Pairwise (fun a b => a.id ≠ b.id) →
      msgs.foldl upsertMessage acc =
        acc.filter (fun x => msgs.all (fun m => x.id ≠ m.id)) ++ msgs := by
  intro msgs
  induction msgs with
  | nil =>
    intro acc _
    simp
  | cons m rest ih =>
    intro acc hpw
    have hhead := (List.pairwise_cons.mp hpw).1
    have hpwt := (List.pairwise_cons.mp hpw).2
    show rest.foldl upsertMessage (upsertMessage acc m) = _
    rw [ih (upsertMessage acc m) hpwt]
    unfold upsertMessage
    rw [List.filter_append]
    have hall : (rest.all fun mm => decide (m.id ≠ mm.id)) = true := by
      rw [List.all_eq_true]
      intro mm hmm
      simpa using hhead mm hmm
    have hm : [m].filter (fun x => rest.all (fun mm => x.id ≠ mm.id)) = [m] := by
      simp only [List.filter]
      rw [hall]
    rw [hm, List.filter_filter]
    have hcong :
        acc.filter (fun a =>
          (rest.all fun mm => a.id ≠ mm.id) && decide (a.id ≠ m.id)) =
        acc.filter (fun x => (m :: rest).all (fun mm => x.id ≠ mm.id)) := by
      apply List.filter_congr
      intro x _
      simp only [List.all_cons]
      rw [Bool.and_comm]
    rw [hcong, List.append_assoc, List.singleton_append]

/-- An already strictly-ordered message list is left unchanged by the
`ORDER BY created_at` sort. -/
theorem sortByCreated_of_chain :
    ∀ l : List HistoryMessage,
      l.Chain' (fun a b =>
        charListLt a.created_at.toList b.created_at.toList = true) →
      sortByCreated l = l := by
  intro l
  induction l with
  | nil => intro _; rfl
  | cons x xs ih =>
    intro h
    cases xs with
    | nil => rfl
    | cons y ys =>
      have hxy := (List.chain'_cons.mp h).1
      have htail := (List.chain'_cons.mp h).2
      show insertByCreated x (sortByCreated (y :: ys)) = x :: y :: ys
      rw [ih htail]
      unfold insertByCreated
      have hle : createdLe y x = false := by
        unfold createdLe
        rw [hxy]
        rfl
      rw [hle]
      simp

/-- C3 counterexample: saving a session whose two messages are listed in
reverse `created_at` order and reading it back returns the messages
re-sorted by timestamp, so the retrieved session differs from the saved
one. -/
theorem C3_counterexample :
    (get_session (save_session emptyStore sessSwapped) "s1").isSome = true ∧
    (get_session (save_session emptyStore sessSwapped) "s1") ≠ some sessSwapped ∧
    (get_session (save_session emptyStore sessSwapped) "s1").map
      (fun x => x.messages.map (fun m => m.id)) = some ["m2", "m1"] ∧
    sessSwapped.messages.map (fun m => m.id) = ["m1", "m2"] := by
  decide

/-- C3 (amended): saving then retrieving a session returns it unchanged —
messages in order with identical contents and all result fields equal —
provided the session is well-formed for this store: its messages carry
its id, have pairwise-distinct ids and strictly increasing `created_at`
timestamps, its result (if any) carries its id, and the store holds no
prior message or result rows under that session id. -/
theorem C3_roundtrip_amended (st : Store) (s : Session)
    (hmsg_sid : ∀ m ∈ s.messages, m.session_id = s.id)
    (hids : s.messages.Pairwise (fun a b => a.id ≠ b.id))
    (hchron : s.messages.Chain' (fun a b =>
      charListLt a.created_at.toList b.created_at.toList = true))
    (hres_sid : ∀ r, s.result = some r → r.session_id = s.id)
    (hnomsg : ∀ m ∈ st.messages, m.session_id ≠ s.id)
    (hnores : ∀ r ∈ st.results, r.session_id ≠ s.id) :
    get_session (save_session st s) s.id = some s := by
  have hrow : (upsertSession st.sessions
      { id := s.id, user_query := s.user_query, task_type := s.task_type,
        participating_ais := s.participating_ais,
        total_rounds := s.total_rounds, status := s.status,
        created_at := s.created_at, updated_at := s.updated_at }).find?
        (fun r => r.id = s.id) =
      some
        { id := s.id, user_query := s.user_query, task_type := s.task_type,
          participating_ais := s.participating_ais,
          total_rounds := s.total_rounds, status := s.status,
          created_at := s.created_at, updated_at := s.updated_at } := by
    unfold upsertSession
    rw [find?_append_of_none]
    · simp [List.find?]
    · intro x hx
      have := (List.mem_filter.mp hx).2
      simpa using this
  have hmsgs : sortByCreated
      ((s.messages.foldl upsertMessage st.messages).filter
        (fun m => m.session_id = s.id)) = s.messages := by
    rw [foldl_upsertMessage s.messages st.messages hids, List.filter_append]
    have h1 : (st.messages.filter
        (fun x => s.messages.all (fun m => x.id ≠ m.id))).filter
        (fun m => m.session_id = s.id) = [] := by
      rw [List.filter_eq_nil_iff]
      intro a ha
      have := hnomsg a (List.mem_filter.mp ha).1
      simpa using this
    have h2 : s.messages.filter (fun m => m.session_id = s.id) = s.messages := by
      rw [List.filter_eq_self]
      intro a ha
      simpa using hmsg_sid a ha
    rw [h1, h2, List.nil_append]
    exact sortByCreated_of_chain s.messages hchron
  have hres : (match s.result with
      | none => st.results
      | some r => upsertResult st.results r).find?
        (fun r => r.session_id = s.id) = s.result := by
    cases hsr : s.result with
    | none =>
      show st.results.find? (fun r => r.session_id = s.id) = none
      rw [List.find?_eq_none]
      intro x hx
      simpa using hnores x hx
    | some r =>
      show (upsertResult st.results r).find? (fun x => x.session_id = s.id) = some r
      unfold upsertResult
      rw [find?_append_of_none]
      · have hr := hres_sid r hsr
        simp [List.find?, hr]
      · intro x hx
        have := hnores x (List.mem_filter.mp hx).1
        simpa using this
  unfold get_session save_session
  simp only [hrow, hmsgs, hres]

/-- C3 witness: a concrete two-message session with a result round-trips
through an empty store unchanged. -/
theorem C3_roundtrip_amended_witness :
    get_session (save_session emptyStore sessOrdered) sessOrdered.id =
      some sessOrdered := by
  apply C3_roundtrip_amended
  · decide
  · decide
  · exact List.chain'_cons.mpr ⟨by decide, List.chain'_singleton _⟩
  · intro r hr
    cases hr
    rfl
  · intro m hm
    simp [emptyStore] at hm
  · intro r hr
    simp [emptyStore] at hr

/-! ### C2 -/

/-- Chunk events are invisible to the four structural counters. -/
theorem countP_chunkMap (p : Event → Bool)
    (hp : ∀ n c, p (Event.aiChunk n c) = false) (name : String)
    (chunks : List String) :
    (chunks.map (fun c => Event.aiChunk name c)).countP p = 0 := by
  rw [List.countP_eq_zero]
  intro ev hev
  rcases List.mem_map.mp hev with ⟨c, _, hc⟩
  rw [← hc]
  simp [hp]

/-- A caught-failure or successful turn emits exactly one `AITurnStart`,
one terminal (`AITurnEnd` or `AIError`), no round or completion events,
and lets no exception escape. -/
theorem runTurn_spec (cfg : DiscussionConfig) (a : Adapter) (ctx : Ctx) (r : Nat)
    (hc : ∀ p e, (a.send p).2 = some e → caughtByDiscussion e = true) :
    (runTurn cfg a ctx r).2.2 = none ∧
    (runTurn cfg a ctx r).1.countP isTurnStartEvent = 1 ∧
    (runTurn cfg a ctx r).1.countP isRoundStartEvent = 0 ∧
    (runTurn cfg a ctx r).1.countP isTurnEndEvent +
      (runTurn cfg a ctx r).1.countP isAiErrorEvent = 1 ∧
    (runTurn cfg a ctx r).1.countP isCompleteEvent = 0 := by
  rcases hsend : a.send (build_prompt_for ctx a.name (r = 1)) with ⟨chunks, oe⟩
  cases oe with
  | none =>
    simp only [runTurn, hsend]
    refine ⟨by trivial, ?_, ?_, ?_, ?_⟩ <;>
      simp [List.countP_cons, List.countP_append, List.countP_map,
        Function.comp_def, isTurnStartEvent, isRoundStartEvent, isTurnEndEvent,
        isAiErrorEvent, isCompleteEvent]
  | some e =>
    have hcaught : caughtByDiscussion e = true := hc _ e (by rw [hsend])
    simp only [runTurn, hsend]
    rw [if_pos hcaught]
    refine ⟨by trivial, ?_, ?_, ?_, ?_⟩ <;>
      simp [List.countP_cons, List.countP_append, List.countP_map,
        Function.comp_def, isTurnStartEvent, isRoundStartEvent, isTurnEndEvent,
        isAiErrorEvent, isCompleteEvent]

/-- One full round over the adapter list: one `AITurnStart` per adapter,
matching terminals, no round or completion events, no escape. -/
theorem runRoundTurns_spec (cfg : DiscussionConfig) (r : Nat) :
    ∀ (adapters : List Adapter) (ctx : Ctx),
      (∀ a ∈ adapters, ∀ p e, (a.send p).2 = some e →
        caughtByDiscussion e = true) →
      (runRoundTurns cfg ctx r adapters).2.2 = none ∧
      (runRoundTurns cfg ctx r adapters).1.countP isTurnStartEvent =
        adapters.length ∧
      (runRoundTurns cfg ctx r adapters).1.countP isRoundStartEvent = 0 ∧
      (runRoundTurns cfg ctx r adapters).1.countP isTurnEndEvent +
        (runRoundTurns cfg ctx r adapters).1.countP isAiErrorEvent =
        adapters.length ∧
      (runRoundTurns cfg ctx r adapters).1.countP isCompleteEvent = 0 := by
  intro adapters
  induction adapters with
  | nil =>
    intro ctx _
    exact ⟨rfl, rfl, rfl, rfl, rfl⟩
  | cons a rest ih =>
    intro ctx hc
    have hca := hc a (List.mem_cons_self _ _)
    obtain ⟨ht0, ht1, ht2, ht3, ht4⟩ := runTurn_spec cfg a ctx r hca
    rcases hturn : runTurn cfg a ctx r with ⟨evs, ctx', ab⟩
    rw [hturn] at ht0 ht1 ht2 ht3 ht4
    simp only at ht0 ht1 ht2 ht3 ht4
    subst ht0
    obtain ⟨hr0, hr1, hr2, hr3, hr4⟩ :=
      ih ctx' (fun x hx => hc x (List.mem_cons_of_mem _ hx))
    rcases hrest : runRoundTurns cfg ctx' r rest with ⟨evs', ctx'', ab'⟩
    rw [hrest] at hr0 hr1 hr2 hr3 hr4
    simp only at hr0 hr1 hr2 hr3 hr4
    subst hr0
    simp only [runRoundTurns, hturn, hrest]
    refine ⟨by trivial, ?_, ?_, ?_, ?_⟩ <;>
      simp only [List.countP_append, List.length_cons, ht1, ht2, ht3, ht4,
        hr1, hr2, hr3, hr4] <;>
      omega

/-- The round loop under caught-only failures: no escape, and the
emitted events satisfy the per-round counting invariants. -/
theorem runRounds_spec (cfg : DiscussionConfig) (adapters : List Adapter)
    (max_rounds : Nat)
    (hc : ∀ a ∈ adapters, ∀ p e, (a.send p).2 = some e →
      caughtByDiscussion e = true) :
    ∀ (rs : List Nat) (ctx : Ctx) (cur : Nat) (cons : Bool),
      (runRounds cfg adapters max_rounds rs ctx cur cons).2.2.2.2 = none ∧
      (runRounds cfg adapters max_rounds rs ctx cur cons).1.countP
          isTurnStartEvent =
        adapters.length *
          (runRounds cfg adapters max_rounds rs ctx cur cons).1.countP
            isRoundStartEvent ∧
      (runRounds cfg adapters max_rounds rs ctx cur cons).1.countP
          isTurnEndEvent +
        (runRounds cfg adapters max_rounds rs ctx cur cons).1.countP
          isAiErrorEvent =
        (runRounds cfg adapters max_rounds rs ctx cur cons).1.countP
          isTurnStartEvent ∧
      (runRounds cfg adapters max_rounds rs ctx cur cons).1.countP
          isCompleteEvent = 0 := by
  intro rs
  induction rs with
  | nil =>
    intro ctx cur cons
    exact ⟨rfl, rfl, rfl, rfl⟩
  | cons r rest ih =>
    intro ctx cur cons
    obtain ⟨hpp0, hpp1, hpp2, hpp3, hpp4⟩ := runRoundTurns_spec cfg r adapters ctx hc
    rcases hturns : runRoundTurns cfg ctx r adapters with ⟨tEvs, ctx', ab⟩
    rw [hturns] at hpp0 hpp1 hpp2 hpp3 hpp4
    simp only at hpp0 hpp1 hpp2 hpp3 hpp4
    subst hpp0
    simp only [runRounds, hturns]
    by_cases hcc : (cfg.enable_consensus_check && decide (1 < r)) = true
    · rw [if_pos hcc]
      by_cases hreach : checkConsensus cfg ctx' = true
      · rw [if_pos hreach]
        refine ⟨by trivial, ?_, ?_, ?_⟩
        · simp [List.countP_cons, List.countP_append, isTurnStartEvent,
            isRoundStartEvent, isTurnEndEvent, isAiErrorEvent, isCompleteEvent,
            hpp1, hpp2]
        · simp [List.countP_cons, List.countP_append, isTurnStartEvent,
            isRoundStartEvent, isTurnEndEvent, isAiErrorEvent, isCompleteEvent]
          omega
        · simp [List.countP_cons, List.countP_append, isCompleteEvent, hpp4]
      · rw [if_neg hreach]
        obtain ⟨hq0, hq1, hq2, hq3⟩ := ih ctx' r cons
        rcases hrec : runRounds cfg adapters max_rounds rest ctx' r cons with
          ⟨evs', ctx'', cur', cons', ab'⟩
        rw [hrec] at hq0 hq1 hq2 hq3
        simp only at hq0 hq1 hq2 hq3
        subst hq0
        simp only [hrec]
        refine ⟨by trivial, ?_, ?_, ?_⟩
        · simp only [List.countP_cons, List.countP_append]
          simp [isTurnStartEvent, isRoundStartEvent, isTurnEndEvent,
            isAiErrorEvent, isCompleteEvent]
          rw [hpp1, hq1, hpp2]
          ring
        · simp only [List.countP_cons, List.countP_append]
          simp [isTurnStartEvent, isRoundStartEvent, isTurnEndEvent,
            isAiErrorEvent, isCompleteEvent]
          omega
        · simp [List.countP_cons, List.countP_append, isCompleteEvent,
            hpp4, hq3]
    · rw [if_neg hcc]
      obtain ⟨hq0, hq1, hq2, hq3⟩ := ih ctx' r cons
      rcases hrec : runRounds cfg adapters max_rounds rest ctx' r cons with
        ⟨evs', ctx'', cur', cons', ab'⟩
      rw [hrec] at hq0 hq1 hq2 hq3
      simp only at hq0 hq1 hq2 hq3
      subst hq0
      simp only [hrec]
      refine ⟨by trivial, ?_, ?_, ?_⟩
      · simp only [List.countP_cons, List.countP_append]
        simp [isTurnStartEvent, isRoundStartEvent, isTurnEndEvent,
          isAiErrorEvent, isCompleteEvent]
        rw [hpp1, hq1, hpp2]
        ring
      · simp only [List.countP_cons, List.countP_append]
        simp [isTurnStartEvent, isRoundStartEvent, isTurnEndEvent,
          isAiErrorEvent, isCompleteEvent]
        omega
      · simp [List.countP_cons, List.countP_append, isCompleteEvent,
          hpp4, hq3]

/-- C2 counterexample: on the fast path a failing `send` yields an
`AIError` and the stream ends there — no `Result` event is ever emitted,
contradicting the claim that the stream still terminates with `Result`. -/
theorem C2_counterexample :
    (fastSingleAiResponse "hi" [constFailAdapter]).getLast? =
      some (Event.aiError "Codex" "connection refused") ∧
    (∀ ev ∈ fastSingleAiResponse "hi" [constFailAdapter],
      isResultEvent ev = false) := by
  decide

/-- C2 (amended): in the standard discussion path, when every exception
an adapter's `send` raises is of a caught kind (`AdapterError` subclass
or `asyncio.TimeoutError`), no failure aborts the stream: the run
terminates with a `DiscussionComplete` event, every executed round gives
each adapter exactly one turn (turn starts = adapters × round starts),
and every turn ends in `AITurnEnd` or `AIError`.  Failures of other
kinds (for example `CircuitBreakerOpenError`) escape the generator.  On
the fast path, any `send` failure ends the stream right after its
`AIError` event, and no `Result` event is emitted. -/
theorem C2_failure_isolation_amended (cfg : DiscussionConfig) (task : Task)
    (adapters : List Adapter) (ctx0 : Ctx)
    (hc : ∀ a ∈ adapters, ∀ p e, (a.send p).2 = some e →
      caughtByDiscussion e = true) :
    (run cfg task adapters ctx0).2.2 = none ∧
    (∃ r c, (run cfg task adapters ctx0).1.getLast? =
      some (Event.discussionComplete r c)) ∧
    (run cfg task adapters ctx0).1.countP isTurnStartEvent =
      adapters.length *
        (run cfg task adapters ctx0).1.countP isRoundStartEvent ∧
    (run cfg task adapters ctx0).1.countP isTurnEndEvent +
      (run cfg task adapters ctx0).1.countP isAiErrorEvent =
      (run cfg task adapters ctx0).1.countP isTurnStartEvent ∧
    (∀ (input : String) (a : Adapter) (rest : List Adapter)
        (chunks : List String) (e : Exn),
      a.send input = (chunks, some e) →
      (fastSingleAiResponse input (a :: rest)).getLast? =
        some (Event.aiError a.display_name (exnStr e)) ∧
      ∀ ev ∈ fastSingleAiResponse input (a :: rest),
        isResultEvent ev = false) := by
  obtain ⟨hq0, hq1, hq2, hq3⟩ := runRounds_spec cfg adapters
    (min task.suggested_rounds cfg.max_rounds) hc
    (List.range' 1 (min task.suggested_rounds cfg.max_rounds)) ctx0 0 false
  rcases hrr : runRounds cfg adapters (min task.suggested_rounds cfg.max_rounds)
      (List.range' 1 (min task.suggested_rounds cfg.max_rounds)) ctx0 0 false with
    ⟨evs, ctx', cur, cons, ab⟩
  rw [hrr] at hq0 hq1 hq2 hq3
  simp only at hq0 hq1 hq2 hq3
  subst hq0
  have hrun : run cfg task adapters ctx0 =
      (evs ++ [Event.discussionComplete cur cons], ctx', none) := by
    unfold run
    rw [hrr]
  rw [hrun]
  refine ⟨rfl, ⟨cur, cons, ?_⟩, ?_, ?_, ?_⟩
  · simp
  · simp only [List.countP_append, List.countP_cons, List.countP_nil,
      isTurnStartEvent, isRoundStartEvent]
    simpa using hq1
  · simp only [List.countP_append, List.countP_cons, List.countP_nil,
      isTurnEndEvent, isAiErrorEvent, isTurnStartEvent]
    simpa using hq2
  · intro input a rest chunks e hsend
    constructor
    · show (fastSingleAiResponse input (a :: rest)).getLast? = _
      simp only [fastSingleAiResponse, hsend]
      exact List.getLast?_concat _
    · intro ev hev
      simp only [fastSingleAiResponse, hsend] at hev
      rcases List.mem_append.mp hev with h | h
      · rcases List.mem_append.mp h with h | h
        · rcases List.mem_cons.mp h with h | h
          · rw [h]
            rfl
          · rw [List.mem_singleton.mp h]
            rfl
        · rcases List.mem_map.mp h with ⟨c, _, hc⟩
          rw [← hc]
          rfl
      · rw [List.mem_singleton.mp h]
        rfl

/-- C2 witness: a single always-failing connection-error adapter on a
one-round task completes the discussion stream, and the fast path on the
same adapter ends in `AIError` with no `Result`. -/
theorem C2_failure_isolation_amended_witness :
    (run defaultDiscussionConfig (analyze "hello") [constFailAdapter]
      (mkCtx "hello")).2.2 = none ∧
    (∃ r c, (run defaultDiscussionConfig (analyze "hello") [constFailAdapter]
      (mkCtx "hello")).1.getLast? = some (Event.discussionComplete r c)) ∧
    (run defaultDiscussionConfig (analyze "hello") [constFailAdapter]
      (mkCtx "hello")).1.countP isTurnStartEvent =
      [constFailAdapter].length *
        (run defaultDiscussionConfig (analyze "hello") [constFailAdapter]
          (mkCtx "hello")).1.countP isRoundStartEvent ∧
    (run defaultDiscussionConfig (analyze "hello") [constFailAdapter]
      (mkCtx "hello")).1.countP isTurnEndEvent +
      (run defaultDiscussionConfig (analyze "hello") [constFailAdapter]
        (mkCtx "hello")).1.countP isAiErrorEvent =
      (run defaultDiscussionConfig (analyze "hello") [constFailAdapter]
        (mkCtx "hello")).1.countP isTurnStartEvent ∧
    (∀ (input : String) (a : Adapter) (rest : List Adapter)
        (chunks : List String) (e : Exn),
      a.send input = (chunks, some e) →
      (fastSingleAiResponse input (a :: rest)).getLast? =
        some (Event.aiError a.display_name (exnStr e)) ∧
      ∀ ev ∈ fastSingleAiResponse input (a :: rest),
        isResultEvent ev = false) := by
  apply C2_failure_isolation_amended
  intro a ha p e h
  rw [List.mem_singleton] at ha
  subst ha
  simp only [constFailAdapter] at h
  cases h
  rfl

end CIH
